import Mathlib

/-!
Verification development for the four-stage multi-agent debate engine
(`graph.py`).  The Python source is shallowly embedded: the debate state
becomes a Lean structure, the scheduler (`determine_next_node`), the
fair-rotation selector (`select_next_questioner_and_target`), the RAG
context cache (`get_rag_context_for_agent`) and the per-stage turn
generators (`_generate_*`) become executable Lean functions, and the
LangGraph node loop (`create_agent_node_function` /
`handle_stage_transition`) becomes a fuel-driven step function on a
configuration (current graph node + state + oracle counters).

External collaborators are modelled as oracles:
  * `Collab.pick`    — the stream of indices drawn by `random.choice`
                       (each call consumes one counter position; the
                       index is taken modulo the candidate-list length);
  * `Collab.infer`   — the inference collaborator (`pipe.invoke`); an
                       `Except.error e` models the call raising, which is
                       caught by the `try/except` in
                       `_generate_agent_response`;
  * `Collab.retrieve`— the retrieval collaborator
                       (`rag_module.get_rag_context_for_agent`); the
                       empty string or the sentinel `暂无相关学术资料。`
                       models "nothing found".

A ghost `fetchLog` records every actual invocation of the retrieval
collaborator so that once-per-run properties can be stated.  Python's
in-place mutation of `agent_paper_cache` / `first_round_rag_completed`
(which persists in the LangGraph state even when the subsequent
`pipe.invoke` raises) is modelled by applying the cache delta before the
inference call is inspected.
-/

namespace DebateGraph

set_option maxRecDepth 20000

/-- One record of the `questions_asked` ledger:
`{questioner, target, question, answer}` (graph.py line 79). -/
structure QA where
  questioner : String
  target : String
  question : String
  answer : String
deriving DecidableEq, Repr

/-- Python `dict` insert/overwrite for the string-keyed mappings
(`agent_paper_cache`, `opening_statements`, `closing_statements`). -/
def dictInsert (m : List (String × String)) (k v : String) : List (String × String) :=
  m.filter (fun p => decide (p.1 ≠ k)) ++ [(k, v)]

/-- Keys of a string-keyed mapping. -/
def dictKeys (m : List (String × String)) : List String :=
  m.map Prod.fst

/-- Lookup in a string-keyed mapping. -/
def dictLookup (m : List (String × String)) (k : String) : Option String :=
  match m with
  | [] => none
  | p :: rest => if p.1 = k then some p.2 else dictLookup rest k

/-- The scheduling-relevant fields of `MultiAgentDebateState`
(graph.py lines 53-91).  Fields that never influence control flow
(`rag_sources`, `collected_references`, `max_refs_per_agent`,
`max_results_per_source`, `agent_positions`, `key_points_raised`,
`controversial_points`) are absorbed into the oracles and omitted;
the transcript (`messages`) is modelled as the emitted event list. -/
structure DebateState where
  main_topic : String
  current_stage : String
  stage_progress : Nat
  max_rounds : Nat
  active_agents : List String
  total_messages : Nat
  rag_enabled : Bool
  agent_paper_cache : List (String × String)
  first_round_rag_completed : List String
  questions_asked : List QA
  current_questioner : String
  current_target : String
  waiting_for_answer : Bool
  opening_statements : List (String × String)
  closing_statements : List (String × String)
deriving DecidableEq, Repr

/-- The keys of `AVAILABLE_ROLES` (graph.py lines 95-167). -/
def roleKeys : List String :=
  ["environmentalist", "economist", "policy_maker", "tech_expert", "sociologist", "ethicist"]

/-- `AVAILABLE_ROLES[key]["name"]` (display name used for attribution). -/
def roleName (k : String) : String :=
  if k = "environmentalist" then "环保主义者"
  else if k = "economist" then "经济学家"
  else if k = "policy_maker" then "政策制定者"
  else if k = "tech_expert" then "技术专家"
  else if k = "sociologist" then "社会学家"
  else if k = "ethicist" then "伦理学家"
  else ""

/-- Python `str.strip()` (kernel-computable character-list
implementation of whitespace trimming). -/
def pyStrip (s : String) : String :=
  ⟨((s.data.dropWhile Char.isWhitespace).reverse.dropWhile Char.isWhitespace).reverse⟩

/-- Python `str.startswith(p)` (kernel-computable character-list
implementation). -/
def pyStartsWith (s p : String) : Bool :=
  decide (s.data.take p.data.length = p.data)

/-- External collaborators, modelled as oracles (see header comment). -/
structure Collab where
  pick : Nat → Nat
  infer : Nat → Except String String
  retrieve : String → String → String

/-- Number of questions authored by `a` in the ledger
(the `question_count` dict of graph.py lines 494-499). -/
def question_count (qa : List QA) (a : String) : Nat :=
  (qa.filter (fun r => decide (r.questioner = a))).length

/-- Number of questions received by `a` in the ledger
(the `target_count` dict of graph.py lines 494-499). -/
def target_count (qa : List QA) (a : String) : Nat :=
  (qa.filter (fun r => decide (r.target = a))).length

/-- Python `min` over a non-empty collection (0 on the empty list, which
Python would reject; all uses are guarded by non-emptiness). -/
def listMin : List Nat → Nat
  | [] => 0
  | [x] => x
  | x :: y :: rest => min x (listMin (y :: rest))

/-- `random.choice(l)` given an oracle index `i`: the element at
`i % l.length` (empty-list behaviour is irrelevant, guarded away). -/
def choiceAt (i : Nat) (l : List String) : String :=
  l.getD (i % l.length) ""

/-- `candidates_questioner` (graph.py line 503): the agents whose
authored-count equals the minimum authored-count. -/
def candidates_questioner (active : List String) (qa : List QA) : List String :=
  active.filter (fun a => decide (question_count qa a = listMin (active.map (question_count qa))))

/-- `available_targets` (graph.py line 507): everyone but the questioner. -/
def available_targets (active : List String) (questioner : String) : List String :=
  active.filter (fun a => decide (a ≠ questioner))

/-- `candidates_target` (graph.py line 509): the available targets whose
received-count equals the minimum received-count among them. -/
def candidates_target (active : List String) (qa : List QA) (questioner : String) : List String :=
  (available_targets active questioner).filter
    (fun a => decide (target_count qa a =
      listMin ((available_targets active questioner).map (target_count qa))))

/-- `select_next_questioner_and_target` (graph.py lines 491-512):
the questioner is a random choice among the agents with minimal
authored-count; the target is a random choice among the remaining agents
with minimal received-count.  `p1`, `p2` are the two `random.choice`
oracle indices. -/
def select_next_questioner_and_target (p1 p2 : Nat) (active : List String) (qa : List QA) :
    String × String :=
  let questioner := choiceAt p1 (candidates_questioner active qa)
  let target := choiceAt p2 (candidates_target active qa questioner)
  (questioner, target)

/-- `determine_next_node` (graph.py lines 515-568).  Returns the next
graph node (an agent key, one of the stage names, or the LangGraph `END`
sentinel `"__end__"`) together with the advanced pick counter (the
questioning branch consumes two `random.choice` draws via
`select_next_questioner_and_target`). -/
def determine_next_node (c : Collab) (k : Nat) (s : DebateState) : String × Nat :=
  let n := s.active_agents.length
  if s.current_stage = "opening" then
    if s.stage_progress < n then (s.active_agents.getD s.stage_progress "", k)
    else ("questioning", k)
  else if s.current_stage = "questioning" then
    if s.waiting_for_answer = true then
      if s.current_target ≠ "" ∧ s.current_target ∈ s.active_agents then (s.current_target, k)
      else ("free_debate", k)
    else
      if s.questions_asked.length < n then
        let qt := select_next_questioner_and_target (c.pick k) (c.pick (k + 1))
          s.active_agents s.questions_asked
        (qt.1, k + 2)
      else ("free_debate", k)
  else if s.current_stage = "free_debate" then
    let current_round := s.stage_progress / n + 1
    if current_round ≤ s.max_rounds then (s.active_agents.getD (s.stage_progress % n) "", k)
    else ("closing", k)
  else if s.current_stage = "closing" then
    if s.stage_progress < n then (s.active_agents.getD s.stage_progress "", k)
    else ("__end__", k)
  else ("__end__", k)

/-- Result of `get_rag_context_for_agent`: the context string handed to
the prompt, the (possibly updated) cache and fetched-set, and a ghost
flag recording whether the retrieval collaborator was actually
invoked. -/
structure RagResult where
  context : String
  cache : List (String × String)
  completed : List String
  fetched : Bool
deriving DecidableEq, Repr

/-- The "nothing found" fallback text of `get_rag_context_for_agent`. -/
def nothingFound : String := "暂未找到直接相关的最新信息，请基于你的专业知识发表观点。"

/-- The sentinel returned by the retrieval module when it finds nothing. -/
def emptySentinel : String := "暂无相关学术资料。"

/-- `get_rag_context_for_agent` (graph.py lines 432-488).  A fetch
happens only in the opening stage for an agent not yet in
`first_round_rag_completed`; a successful non-empty result is cached and
the agent marked; a "nothing found" result is *neither* cached *nor*
marked (lines 471-473).  Outside that case the cache is consulted.
`rag_module is None` is folded into `rag_enabled = false`. -/
def get_rag_context_for_agent (c : Collab) (agent : String) (s : DebateState) : RagResult :=
  if s.rag_enabled = false then
    ⟨"当前未启用联网搜索功能。", s.agent_paper_cache, s.first_round_rag_completed, false⟩
  else if s.current_stage = "opening" ∧ agent ∉ s.first_round_rag_completed then
    let context := c.retrieve agent s.main_topic
    if context ≠ "" ∧ pyStrip context ≠ emptySentinel then
      ⟨context, dictInsert s.agent_paper_cache agent context,
        s.first_round_rag_completed ++ [agent], true⟩
    else
      ⟨nothingFound, s.agent_paper_cache, s.first_round_rag_completed, true⟩
  else if agent ∈ dictKeys s.agent_paper_cache then
    ⟨(dictLookup s.agent_paper_cache agent).getD "", s.agent_paper_cache,
      s.first_round_rag_completed, false⟩
  else
    ⟨nothingFound, s.agent_paper_cache, s.first_round_rag_completed, false⟩

/-- Result of one turn generator: the updated state, the emitted message
content, the advanced pick/infer counters, and the ghost fetch log. -/
structure GenOut where
  state : DebateState
  msg : String
  pk : Nat
  ik : Nat
  fetchLog : List String
deriving DecidableEq, Repr

/-- The counter increments shared by every turn
(`total_messages + 1`, `stage_progress + 1`). -/
def incr (s : DebateState) : DebateState :=
  { s with total_messages := s.total_messages + 1, stage_progress := s.stage_progress + 1 }

/-- Response post-processing (every generator): trim, and prepend
`"<name>: "` unless the text already starts with the display name. -/
def formatResp (nm resp : String) : String :=
  let r := pyStrip resp
  if pyStartsWith r nm then r else nm ++ ": " ++ r

/-- The apology emitted by the `except` clause of
`_generate_agent_response` (graph.py lines 605-612) when the inference
collaborator raises. -/
def apologyMsg (a e : String) : String :=
  roleName a ++ ": 抱歉，我现在无法发言。技术问题：" ++ e

/-- `_generate_opening_statement` (graph.py lines 615-674).  The RAG
context is fetched (and the cache delta applied in place) before
`pipe.invoke`; on inference failure the enclosing `except` emits the
apology and increments the counters, with the cache delta already
persisted. -/
def _generate_opening_statement (c : Collab) (s : DebateState) (a : String)
    (pk ik : Nat) (flog : List String) : GenOut :=
  let r := get_rag_context_for_agent c a s
  let s1 := { s with agent_paper_cache := r.cache, first_round_rag_completed := r.completed }
  let flog1 := if r.fetched then flog ++ [a] else flog
  match c.infer ik with
  | Except.error e => ⟨incr s1, apologyMsg a e, pk, ik + 1, flog1⟩
  | Except.ok txt =>
    let resp := formatResp (roleName a) txt
    ⟨{ incr s1 with opening_statements := dictInsert s1.opening_statements a resp },
      resp, pk, ik + 1, flog1⟩

/-- `_generate_question` (graph.py lines 677-766).  The selector is
re-run with two fresh `random.choice` draws; if the scheduled agent is
not the freshly drawn questioner the "当前不是我的提问时间" safety branch
emits an error turn without touching the ledger (lines 687-694). -/
def _generate_question (c : Collab) (s : DebateState) (a : String)
    (pk ik : Nat) (flog : List String) : GenOut :=
  let qt := select_next_questioner_and_target (c.pick pk) (c.pick (pk + 1))
    s.active_agents s.questions_asked
  if a ≠ qt.1 then
    ⟨incr s, roleName a ++ ": 当前不是我的提问时间。", pk + 2, ik, flog⟩
  else
    let r := get_rag_context_for_agent c a s
    let s1 := { s with agent_paper_cache := r.cache, first_round_rag_completed := r.completed }
    let flog1 := if r.fetched then flog ++ [a] else flog
    match c.infer ik with
    | Except.error e => ⟨incr s1, apologyMsg a e, pk + 2, ik + 1, flog1⟩
    | Except.ok txt =>
      let resp := formatResp (roleName a) txt
      ⟨{ incr s1 with
          questions_asked := s1.questions_asked ++ [⟨a, qt.2, resp, ""⟩],
          current_questioner := a,
          current_target := qt.2,
          waiting_for_answer := true },
        resp, pk + 2, ik + 1, flog1⟩

/-- `_generate_answer` (graph.py lines 769-852): fill the `answer` field
of the most recent ledger record and clear the QA cursor. -/
def _generate_answer (c : Collab) (s : DebateState) (a : String)
    (pk ik : Nat) (flog : List String) : GenOut :=
  if s.questions_asked = [] then
    ⟨incr s, roleName a ++ ": 没有找到需要回答的问题。", pk, ik, flog⟩
  else
    let r := get_rag_context_for_agent c a s
    let s1 := { s with agent_paper_cache := r.cache, first_round_rag_completed := r.completed }
    let flog1 := if r.fetched then flog ++ [a] else flog
    match c.infer ik with
    | Except.error e => ⟨incr s1, apologyMsg a e, pk, ik + 1, flog1⟩
    | Except.ok txt =>
      let resp := formatResp (roleName a) txt
      let last := s1.questions_asked.getLastD ⟨"", "", "", ""⟩
      ⟨{ incr s1 with
          questions_asked := s1.questions_asked.dropLast ++ [{ last with answer := resp }],
          waiting_for_answer := false,
          current_questioner := "",
          current_target := "" },
        resp, pk, ik + 1, flog1⟩

/-- `_generate_free_debate_response` (graph.py lines 855-916): transcript
only, counters incremented. -/
def _generate_free_debate_response (c : Collab) (s : DebateState) (a : String)
    (pk ik : Nat) (flog : List String) : GenOut :=
  let r := get_rag_context_for_agent c a s
  let s1 := { s with agent_paper_cache := r.cache, first_round_rag_completed := r.completed }
  let flog1 := if r.fetched then flog ++ [a] else flog
  match c.infer ik with
  | Except.error e => ⟨incr s1, apologyMsg a e, pk, ik + 1, flog1⟩
  | Except.ok txt =>
    let resp := formatResp (roleName a) txt
    ⟨incr s1, resp, pk, ik + 1, flog1⟩

/-- `_generate_closing_statement` (graph.py lines 919-980): record into
`closing_statements`. -/
def _generate_closing_statement (c : Collab) (s : DebateState) (a : String)
    (pk ik : Nat) (flog : List String) : GenOut :=
  let r := get_rag_context_for_agent c a s
  let s1 := { s with agent_paper_cache := r.cache, first_round_rag_completed := r.completed }
  let flog1 := if r.fetched then flog ++ [a] else flog
  match c.infer ik with
  | Except.error e => ⟨incr s1, apologyMsg a e, pk, ik + 1, flog1⟩
  | Except.ok txt =>
    let resp := formatResp (roleName a) txt
    ⟨{ incr s1 with closing_statements := dictInsert s1.closing_statements a resp },
      resp, pk, ik + 1, flog1⟩

/-- `_generate_agent_response` (graph.py lines 571-612): the per-stage
dispatch.  The `deepseek is None` start-up guard is omitted (the model
is taken as initialised); inference failure is the `Except.error` case
inside each generator, mirroring the enclosing `try/except`. -/
def _generate_agent_response (c : Collab) (s : DebateState) (a : String)
    (pk ik : Nat) (flog : List String) : GenOut :=
  if s.current_stage = "opening" then
    _generate_opening_statement c s a pk ik flog
  else if s.current_stage = "questioning" then
    if s.waiting_for_answer = true ∧ s.current_target = a then
      _generate_answer c s a pk ik flog
    else
      _generate_question c s a pk ik flog
  else if s.current_stage = "free_debate" then
    _generate_free_debate_response c s a pk ik flog
  else if s.current_stage = "closing" then
    _generate_closing_statement c s a pk ik flog
  else
    ⟨incr s, roleName a ++ ": 未知的辩论阶段。", pk, ik, flog⟩

/-- The announcement text of `handle_stage_transition`
(graph.py lines 1053-1057). -/
def stageMsg (t : String) : String :=
  if t = "questioning" then "📝 现在进入提问回答阶段，每位专家将有机会向其他专家提问。"
  else if t = "free_debate" then "🎯 现在进入自由辩论阶段，各位专家可以就争议观点展开深入讨论。"
  else if t = "closing" then "🏁 现在进入结辩综述阶段，各位专家请发表总结陈词。"
  else "转换到" ++ t ++ "阶段"

/-- `handle_stage_transition` (graph.py lines 1050-1083): set the new
stage, reset `stage_progress` to 0, reset the QA cursor on entry into
questioning, then route to `determine_next_node` of the merged state.
Returns (new state, goto node, advanced pick counter). -/
def handle_stage_transition (c : Collab) (s : DebateState) (target : String) (pk : Nat) :
    DebateState × String × Nat :=
  let s1 := { s with current_stage := target, stage_progress := 0 }
  let s2 :=
    if target = "questioning" then
      { s1 with
          questions_asked := [],
          current_questioner := "",
          current_target := "",
          waiting_for_answer := false }
    else s1
  let nx := determine_next_node c pk s2
  (s2, nx.1, nx.2)

/-- One emitted transcript event: a participant turn or a
stage-transition announcement. -/
inductive Event where
  | turn (agent content : String)
  | trans (stage content : String)
deriving DecidableEq, Repr

/-- A point of the orchestrated run: the current LangGraph node
(`"__end__"` once terminated), the debate state, the two oracle
counters, and the ghost retrieval-invocation log. -/
structure Config where
  node : String
  state : DebateState
  pk : Nat
  ik : Nat
  fetchLog : List String
deriving DecidableEq, Repr

/-- One step of the LangGraph loop (`create_agent_node_function`,
graph.py lines 983-1047, plus the registered stage nodes of
lines 1105-1107): at a stage node run the transition handler; at an
agent node compute `determine_next_node`, then transition / end / hop /
generate exactly as the source does. -/
def step (c : Collab) (cfg : Config) : Config × Option Event :=
  if cfg.node = "__end__" then (cfg, none)
  else if cfg.node = "questioning" ∨ cfg.node = "free_debate" ∨ cfg.node = "closing" then
    let tr := handle_stage_transition c cfg.state cfg.node cfg.pk
    ({ cfg with node := tr.2.1, state := tr.1, pk := tr.2.2 },
      some (Event.trans cfg.node (stageMsg cfg.node)))
  else
    let nx := determine_next_node c cfg.pk cfg.state
    if nx.1 = "questioning" ∨ nx.1 = "free_debate" ∨ nx.1 = "closing" then
      let tr := handle_stage_transition c cfg.state nx.1 nx.2
      ({ cfg with node := tr.2.1, state := tr.1, pk := tr.2.2 },
        some (Event.trans nx.1 (stageMsg nx.1)))
    else if nx.1 = "__end__" then
      ({ cfg with node := "__end__", pk := nx.2 }, none)
    else if nx.1 ≠ cfg.node then
      ({ cfg with node := nx.1, pk := nx.2 }, none)
    else
      let g := _generate_agent_response c cfg.state cfg.node nx.2 cfg.ik cfg.fetchLog
      let nx2 := determine_next_node c g.pk g.state
      (⟨nx2.1, g.state, nx2.2, g.ik, g.fetchLog⟩, some (Event.turn cfg.node g.msg))

/-- Iterate `step` for a given amount of fuel (states only). -/
def iterStep (c : Collab) : Nat → Config → Config
  | 0, cfg => cfg
  | n + 1, cfg => iterStep c n (step c cfg).1

/-- Iterate `step`, collecting the emitted events. -/
def runEvents (c : Collab) : Nat → Config → List Event
  | 0, _ => []
  | n + 1, cfg =>
    let sc := step c cfg
    sc.2.toList ++ runEvents c n sc.1

/-- The initial debate state, as assembled by
`test_four_stage_multi_agent_debate` (graph.py lines 1133-1159). -/
def initState (topic : String) (agents : List String) (mr : Nat) (rag : Bool) : DebateState where
  main_topic := topic
  current_stage := "opening"
  stage_progress := 0
  max_rounds := mr
  active_agents := agents
  total_messages := 0
  rag_enabled := rag
  agent_paper_cache := []
  first_round_rag_completed := []
  questions_asked := []
  current_questioner := ""
  current_target := ""
  waiting_for_answer := false
  opening_statements := []
  closing_statements := []

/-- The initial configuration: `builder.add_edge(START, first_agent)`
routes to `active_agents[0]` (graph.py lines 1109-1110). -/
def initConfig (topic : String) (agents : List String) (mr : Nat) (rag : Bool) : Config :=
  ⟨agents.getD 0 "", initState topic agents mr rag, 0, 0, []⟩

/-- Participant-attributed (non-transition) turns in an event list. -/
def spokenCount (evs : List Event) : Nat :=
  (evs.filter (fun e => match e with | Event.turn _ _ => true | _ => false)).length

/-- Stage-transition announcements in an event list. -/
def transCount (evs : List Event) : Nat :=
  (evs.filter (fun e => match e with | Event.trans _ _ => true | _ => false)).length

/-- The three-participant roster of the spec's reference scenario
(`tech_expert, sociologist, ethicist`, graph.py line 1121). -/
def agents3 : List String := ["tech_expert", "sociologist", "ethicist"]

/-- Collaborators for a fully successful run: every `random.choice`
draws index 0 (so the scheduler's draw and the generator's re-draw
always coincide), inference always succeeds, retrieval finds nothing. -/
def okCollab : Collab :=
  ⟨fun _ => 0, fun _ => Except.ok "发言完毕", fun _ _ => ""⟩

/-- The reference scenario: N = 3, `max_rounds` = 2, retrieval off. -/
def okConfig : Config := initConfig "主题" agents3 2 false

/-- Collaborators whose inference call always raises. -/
def failCollab : Collab :=
  ⟨fun _ => 0, fun _ => Except.error "连接超时", fun _ _ => ""⟩

/-- The reference scenario driven by the always-failing inference oracle. -/
def failConfig : Config := initConfig "主题" agents3 2 false

/-- Collaborators whose fifth `random.choice` draw (the generator's own
questioner re-draw on the first questioning turn) picks index 1 instead
of 0, making the generator disagree with the scheduler's routing. -/
def misCollab : Collab :=
  ⟨fun k => if k = 4 then 1 else 0, fun _ => Except.ok "发言完毕", fun _ _ => ""⟩

/-- The reference scenario driven by the mismatching tie-break oracle. -/
def misConfig : Config := initConfig "主题" agents3 2 false

/-- Collaborators with retrieval enabled and succeeding: each
participant's search returns a distinct reference text. -/
def ragCollab : Collab :=
  ⟨fun _ => 0, fun _ => Except.ok "发言完毕", fun a _ => "参考资料: " ++ a⟩

/-- The reference scenario with retrieval enabled. -/
def ragConfig : Config := initConfig "主题" agents3 2 true

/-- The inductive invariant of the orchestrated loop, for a roster `A`.
The flag `nf` additionally tracks the bookkeeping that holds when the
inference collaborator never fails (used for the statement-completeness
properties).  `node_fd`, `node_q`, `node_cl` describe the pending
stage-transition nodes; `fetch_le`/`fetch_pending` bound the ghost
retrieval-invocation log. -/
structure Inv (A : List String) (nf : Bool) (cfg : Config) : Prop where
  agents : cfg.state.active_agents = A
  stage_ok : cfg.state.current_stage = "opening" ∨ cfg.state.current_stage = "questioning" ∨
    cfg.state.current_stage = "free_debate" ∨ cfg.state.current_stage = "closing"
  node_ok : cfg.node ∈ A ∨ cfg.node = "questioning" ∨ cfg.node = "free_debate" ∨
    cfg.node = "closing" ∨ cfg.node = "__end__"
  q_mem : ∀ r ∈ cfg.state.questions_asked, r.questioner ∈ A
  q_le : cfg.state.current_stage = "questioning" →
    ∀ a ∈ A, question_count cfg.state.questions_asked a ≤ 1
  w_valid : cfg.state.current_stage = "questioning" → cfg.state.waiting_for_answer = true →
    cfg.state.current_target ∈ A
  qdone : cfg.state.current_stage = "free_debate" ∨ cfg.state.current_stage = "closing" →
    ∀ a ∈ A, question_count cfg.state.questions_asked a = 1
  op_qa : cfg.state.current_stage = "opening" → cfg.state.questions_asked = []
  node_fd : cfg.node = "free_debate" →
    cfg.state.current_stage = "questioning" ∧
    ∀ a ∈ A, question_count cfg.state.questions_asked a = 1
  fetch_le : ∀ a : String, cfg.fetchLog.count a ≤ 1
  fetch_pending : cfg.state.current_stage = "opening" →
    ∀ j (h : j < A.length), cfg.state.stage_progress ≤ j →
      cfg.fetchLog.count (A.get ⟨j, h⟩) = 0
  op_lt : nf = true → cfg.state.current_stage = "opening" →
    ∀ j (h : j < A.length), j < cfg.state.stage_progress →
      A.get ⟨j, h⟩ ∈ dictKeys cfg.state.opening_statements
  op_ge : nf = true → cfg.state.current_stage = "opening" →
    ∀ j (h : j < A.length), cfg.state.stage_progress ≤ j →
      ¬ A.get ⟨j, h⟩ ∈ dictKeys cfg.state.opening_statements
  op_done : nf = true → ¬ cfg.state.current_stage = "opening" →
    ∀ a ∈ A, a ∈ dictKeys cfg.state.opening_statements
  node_q : nf = true → cfg.node = "questioning" →
    cfg.state.current_stage = "opening" ∧ A.length ≤ cfg.state.stage_progress
  node_cl : cfg.node = "closing" → cfg.state.current_stage = "free_debate"
  cl_lt : nf = true → cfg.state.current_stage = "closing" →
    ∀ j (h : j < A.length), j < cfg.state.stage_progress →
      A.get ⟨j, h⟩ ∈ dictKeys cfg.state.closing_statements
  cl_done : nf = true → cfg.node = "__end__" →
    ∀ a ∈ A, a ∈ dictKeys cfg.state.closing_statements
  op_keys : (dictKeys cfg.state.opening_statements).Nodup
  cl_keys : (dictKeys cfg.state.closing_statements).Nodup

/-! ### Helper lemmas -/

theorem listMin_le (l : List Nat) (x : Nat) (hx : x ∈ l) : listMin l ≤ x := by
  induction l with
  | nil => cases hx
  | cons a t ih =>
    cases t with
    | nil =>
      have : x = a := List.mem_singleton.mp hx
      subst this
      simp [listMin]
    | cons b t2 =>
      rcases List.mem_cons.mp hx with h | h
      · subst h
        simp only [listMin]
        exact min_le_left _ _
      · simp only [listMin]
        exact le_trans (min_le_right _ _) (ih h)

theorem listMin_attained (l : List Nat) (h : l ≠ []) : listMin l ∈ l := by
  induction l with
  | nil => exact absurd rfl h
  | cons a t ih =>
    cases t with
    | nil => simp [listMin]
    | cons b t2 =>
      have hm := ih (by simp)
      simp only [listMin]
      rcases min_choice a (listMin (b :: t2)) with hc | hc
      · rw [hc]; exact List.mem_cons_self _ _
      · rw [hc]; exact List.mem_cons_of_mem _ hm

theorem choiceAt_mem (i : Nat) (l : List String) (h : l ≠ []) : choiceAt i l ∈ l := by
  have hlen : 0 < l.length := List.length_pos.mpr h
  have hmod : i % l.length < l.length := Nat.mod_lt _ hlen
  rw [choiceAt, List.getD_eq_getElem l "" hmod]
  exact List.getElem_mem hmod

theorem choiceAt_enum (l : List String) :
    (List.range l.length).map (fun i => choiceAt i l) = l := by
  apply List.ext_get (by simp)
  intro n h1 h2
  have hn : n < l.length := by simpa using h2
  have hr : (List.range l.length).get ⟨n, by simpa using h1⟩ = n := by simp
  simp only [List.get_map, hr, choiceAt, Nat.mod_eq_of_lt hn]
  rw [List.getD_eq_getElem l "" hn]
  simp [List.get_eq_getElem]

theorem mem_candidates_questioner (active : List String) (qa : List QA) (a : String) :
    a ∈ candidates_questioner active qa ↔
      a ∈ active ∧ question_count qa a = listMin (active.map (question_count qa)) := by
  simp [candidates_questioner, List.mem_filter]

theorem candidates_questioner_ne_nil (active : List String) (qa : List QA) (h : active ≠ []) :
    candidates_questioner active qa ≠ [] := by
  have hmap : active.map (question_count qa) ≠ [] := by
    simpa using h
  have hmin := listMin_attained _ hmap
  rcases List.mem_map.mp hmin with ⟨a, ha, hval⟩
  exact List.ne_nil_of_mem ((mem_candidates_questioner active qa a).mpr ⟨ha, hval⟩)

theorem mem_available_targets (active : List String) (q a : String) :
    a ∈ available_targets active q ↔ a ∈ active ∧ a ≠ q := by
  simp [available_targets, List.mem_filter]

theorem mem_candidates_target (active : List String) (qa : List QA) (q a : String) :
    a ∈ candidates_target active qa q ↔
      (a ∈ active ∧ a ≠ q) ∧
        target_count qa a = listMin ((available_targets active q).map (target_count qa)) := by
  simp [candidates_target, List.mem_filter, mem_available_targets]

theorem available_targets_ne_nil (active : List String) (q : String)
    (hnd : active.Nodup) (h2 : 2 ≤ active.length) : available_targets active q ≠ [] := by
  match active, hnd, h2 with
  | a :: b :: t, hnd, _ =>
    have hab : a ≠ b := by
      intro hab
      subst hab
      exact (List.nodup_cons.mp hnd).1 (List.mem_cons_self _ _)
    by_cases hq : a = q
    · refine List.ne_nil_of_mem ((mem_available_targets _ q b).mpr ⟨?_, ?_⟩)
      · exact List.mem_cons_of_mem _ (List.mem_cons_self _ _)
      · rw [← hq]; exact fun hbq => hab hbq.symm
    · exact List.ne_nil_of_mem ((mem_available_targets _ q a).mpr ⟨List.mem_cons_self _ _, hq⟩)

theorem candidates_target_ne_nil (active : List String) (qa : List QA) (q : String)
    (hnd : active.Nodup) (h2 : 2 ≤ active.length) : candidates_target active qa q ≠ [] := by
  have hav := available_targets_ne_nil active q hnd h2
  have hmap : (available_targets active q).map (target_count qa) ≠ [] := by
    simpa using hav
  have hmin := listMin_attained _ hmap
  rcases List.mem_map.mp hmin with ⟨a, ha, hval⟩
  refine List.ne_nil_of_mem ((mem_candidates_target active qa q a).mpr ⟨?_, hval⟩)
  exact (mem_available_targets active q a).mp ha

theorem select_fst_eq (p1 p2 : Nat) (active : List String) (qa : List QA) :
    (select_next_questioner_and_target p1 p2 active qa).1 =
      choiceAt p1 (candidates_questioner active qa) := rfl

theorem select_snd_eq (p1 p2 : Nat) (active : List String) (qa : List QA) :
    (select_next_questioner_and_target p1 p2 active qa).2 =
      choiceAt p2 (candidates_target active qa
        (choiceAt p1 (candidates_questioner active qa))) := rfl

theorem question_count_cons (r : QA) (rest : List QA) (a : String) :
    question_count (r :: rest) a =
      (if r.questioner = a then 1 else 0) + question_count rest a := by
  by_cases h : r.questioner = a <;>
    · simp [question_count, List.filter_cons, h]
      try omega

theorem question_count_append_one (qa : List QA) (r : QA) (a : String) :
    question_count (qa ++ [r]) a =
      question_count qa a + (if r.questioner = a then 1 else 0) := by
  by_cases h : r.questioner = a <;>
    simp [question_count, List.filter_append, List.filter_cons, h]

theorem question_count_answer_update (qa : List QA) (d : QA) (resp : String) (a : String)
    (h : qa ≠ []) :
    question_count (qa.dropLast ++ [{ qa.getLastD d with answer := resp }]) a =
      question_count qa a := by
  have hlast : qa.getLastD d = qa.getLast h := by
    rw [List.getLastD_eq_getLast?, List.getLast?_eq_getLast _ h]
    rfl
  conv_rhs => rw [← List.dropLast_append_getLast h]
  rw [hlast, question_count_append_one, question_count_append_one]

theorem mem_questioner_answer_update (qa : List QA) (d : QA) (resp : String) (A : List String)
    (h : qa ≠ []) (hmem : ∀ r ∈ qa, r.questioner ∈ A) :
    ∀ r ∈ qa.dropLast ++ [{ qa.getLastD d with answer := resp }], r.questioner ∈ A := by
  intro r hr
  rcases List.mem_append.mp hr with hr | hr
  · exact hmem r (List.dropLast_subset _ hr)
  · have hlast : qa.getLastD d = qa.getLast h := by
      rw [List.getLastD_eq_getLast?, List.getLast?_eq_getLast _ h]
      rfl
    have hr' : r = { qa.getLastD d with answer := resp } := List.mem_singleton.mp hr
    rw [hr', hlast]
    exact hmem (qa.getLast h) (List.getLast_mem h)

theorem length_answer_update (qa : List QA) (d : QA) (resp : String) (h : qa ≠ []) :
    (qa.dropLast ++ [{ qa.getLastD d with answer := resp }]).length = qa.length := by
  conv_rhs => rw [← List.dropLast_append_getLast h]
  simp

theorem sum_indicator_eq_one (A : List String) (x : String) (hnd : A.Nodup) (hx : x ∈ A) :
    (A.map (fun a => if x = a then 1 else 0)).sum = 1 := by
  induction A with
  | nil => cases hx
  | cons b t ih =>
    rcases List.mem_cons.mp hx with h | h
    · simp only [List.map_cons, List.sum_cons, if_pos h]
      have hxnot : x ∉ t := by
        rw [h]
        exact (List.nodup_cons.mp hnd).1
      have hz : (t.map (fun a => if x = a then 1 else 0)).sum = 0 := by
        apply List.sum_eq_zero
        intro y hy
        rcases List.mem_map.mp hy with ⟨a, ha, hval⟩
        rw [← hval, if_neg]
        intro hh
        exact hxnot (hh ▸ ha)
      omega
    · have hne : x ≠ b := by
        rintro rfl
        exact (List.nodup_cons.mp hnd).1 h
      simp only [List.map_cons, List.sum_cons, if_neg hne]
      rw [ih (List.nodup_cons.mp hnd).2 h]

theorem length_eq_sum_question_count (A : List String) (qa : List QA)
    (hnd : A.Nodup) (hmem : ∀ r ∈ qa, r.questioner ∈ A) :
    qa.length = (A.map (question_count qa)).sum := by
  induction qa with
  | nil =>
    rw [List.map_congr_left (fun a _ => show question_count [] a = 0 from rfl)]
    simp
  | cons r rest ih =>
    have hrest : ∀ r' ∈ rest, r'.questioner ∈ A := fun r' hr' =>
      hmem r' (List.mem_cons_of_mem _ hr')
    have hsplit : (A.map (question_count (r :: rest))).sum =
        (A.map (fun a => if r.questioner = a then 1 else 0)).sum +
          (A.map (question_count rest)).sum := by
      rw [← List.sum_map_add]
      exact congrArg List.sum (List.map_congr_left
        (fun a _ => question_count_cons r rest a))
    rw [List.length_cons, hsplit, sum_indicator_eq_one A r.questioner hnd
      (hmem r (List.mem_cons_self _ _)), ih hrest]
    omega

theorem sum_le_length_of_le_one (l : List Nat) (h : ∀ x ∈ l, x ≤ 1) : l.sum ≤ l.length := by
  induction l with
  | nil => simp
  | cons x t ih =>
    have hx := h x (List.mem_cons_self _ _)
    have ht := ih (fun y hy => h y (List.mem_cons_of_mem _ hy))
    simp only [List.sum_cons, List.length_cons]
    omega

theorem all_one_of_sum_ge_length (l : List Nat) (h : ∀ x ∈ l, x ≤ 1)
    (hs : l.length ≤ l.sum) : ∀ x ∈ l, x = 1 := by
  induction l with
  | nil => intro x hx; cases hx
  | cons y t ih =>
    have hy := h y (List.mem_cons_self _ _)
    have ht : ∀ x ∈ t, x ≤ 1 := fun x hx => h x (List.mem_cons_of_mem _ hx)
    have hts := sum_le_length_of_le_one t ht
    simp only [List.sum_cons, List.length_cons] at hs
    intro x hx
    rcases List.mem_cons.mp hx with hh | hh
    · omega
    · exact ih ht (by omega) x hh

theorem qa_length_le (A : List String) (qa : List QA) (hnd : A.Nodup)
    (hmem : ∀ r ∈ qa, r.questioner ∈ A)
    (hle : ∀ a ∈ A, question_count qa a ≤ 1) :
    qa.length ≤ A.length := by
  rw [length_eq_sum_question_count A qa hnd hmem]
  calc (A.map (question_count qa)).sum
      ≤ (A.map (question_count qa)).length := by
        apply sum_le_length_of_le_one
        intro x hx
        rcases List.mem_map.mp hx with ⟨a, ha, hval⟩
        exact hval ▸ hle a ha
    _ = A.length := List.length_map _ _

theorem qa_complete (A : List String) (qa : List QA) (hnd : A.Nodup)
    (hmem : ∀ r ∈ qa, r.questioner ∈ A)
    (hle : ∀ a ∈ A, question_count qa a ≤ 1)
    (hlen : A.length ≤ qa.length) :
    ∀ a ∈ A, question_count qa a = 1 := by
  intro a ha
  have hall := all_one_of_sum_ge_length (A.map (question_count qa))
    (by
      intro x hx
      rcases List.mem_map.mp hx with ⟨b, hb, hval⟩
      exact hval ▸ hle b hb)
    (by
      rw [← length_eq_sum_question_count A qa hnd hmem, List.length_map]
      exact hlen)
  exact hall _ (List.mem_map_of_mem _ ha)

theorem min_count_zero (A : List String) (qa : List QA) (hnd : A.Nodup)
    (hmem : ∀ r ∈ qa, r.questioner ∈ A)
    (hlt : qa.length < A.length) :
    listMin (A.map (question_count qa)) = 0 := by
  have hne : A ≠ [] := by
    intro h
    rw [h] at hlt
    simp at hlt
  by_contra hmin
  have hpos : ∀ a ∈ A, 1 ≤ question_count qa a := by
    intro a ha
    have := listMin_le (A.map (question_count qa)) _ (List.mem_map_of_mem _ ha)
    omega
  have : A.length ≤ qa.length := by
    rw [length_eq_sum_question_count A qa hnd hmem]
    calc A.length = (A.map (question_count qa)).length := (List.length_map _ _).symm
      _ ≤ (A.map (question_count qa)).sum := by
          apply List.length_le_sum_of_one_le
          intro x hx
          rcases List.mem_map.mp hx with ⟨b, hb, hval⟩
          exact hval ▸ hpos b hb
  omega

theorem selected_questioner_count_zero (p1 p2 : Nat) (active : List String) (qa : List QA)
    (hnd : active.Nodup) (hmem : ∀ r ∈ qa, r.questioner ∈ active)
    (hlt : qa.length < active.length) :
    question_count qa (select_next_questioner_and_target p1 p2 active qa).1 = 0 := by
  have hne : active ≠ [] := by
    intro h
    rw [h] at hlt
    simp at hlt
  have hqcand : (select_next_questioner_and_target p1 p2 active qa).1 ∈
      candidates_questioner active qa := by
    rw [select_fst_eq]
    exact choiceAt_mem _ _ (candidates_questioner_ne_nil active qa hne)
  have hqspec := (mem_candidates_questioner active qa _).mp hqcand
  rw [hqspec.2]
  exact min_count_zero active qa hnd hmem hlt

theorem mem_dictKeys_dictInsert (m : List (String × String)) (k v x : String) :
    x ∈ dictKeys (dictInsert m k v) ↔ x = k ∨ x ∈ dictKeys m := by
  simp only [dictKeys, dictInsert, List.map_append, List.mem_append]
  constructor
  · rintro (hx | hx)
    · rcases List.mem_map.mp hx with ⟨p, hp, hval⟩
      exact Or.inr (hval ▸ List.mem_map_of_mem _ (List.mem_of_mem_filter hp))
    · simp at hx
      exact Or.inl hx
  · rintro (rfl | hx)
    · right; simp
    · by_cases hxk : x = k
      · right; simp [hxk]
      · left
        rcases List.mem_map.mp hx with ⟨p, hp, hval⟩
        rw [← hval]
        refine List.mem_map_of_mem _ (List.mem_filter.mpr ⟨hp, ?_⟩)
        simp [hval, hxk]

theorem getD_mem (l : List String) (n : Nat) (h : n < l.length) : l.getD n "" ∈ l := by
  rw [List.getD_eq_getElem l "" h]
  exact List.getElem_mem h

theorem roleKeys_not_reserved (a : String) (h : a ∈ roleKeys) :
    a ≠ "questioning" ∧ a ≠ "free_debate" ∧ a ≠ "closing" ∧ a ≠ "__end__" ∧ a ≠ "" ∧
      a ≠ "opening" := by
  fin_cases h <;> refine ⟨by decide, by decide, by decide, by decide, by decide, by decide⟩

theorem select_fst_mem (p1 p2 : Nat) (active : List String) (qa : List QA)
    (h : active ≠ []) :
    (select_next_questioner_and_target p1 p2 active qa).1 ∈ active := by
  have hc := choiceAt_mem p1 _ (candidates_questioner_ne_nil active qa h)
  rw [select_fst_eq]
  exact ((mem_candidates_questioner active qa _).mp hc).1

theorem select_snd_mem (p1 p2 : Nat) (active : List String) (qa : List QA)
    (hnd : active.Nodup) (h2 : 2 ≤ active.length) :
    (select_next_questioner_and_target p1 p2 active qa).2 ∈ active ∧
    (select_next_questioner_and_target p1 p2 active qa).2 ≠
      (select_next_questioner_and_target p1 p2 active qa).1 := by
  have hc := choiceAt_mem p2 _ (candidates_target_ne_nil active qa
    (choiceAt p1 (candidates_questioner active qa)) hnd h2)
  rw [select_snd_eq, select_fst_eq]
  exact ((mem_candidates_target active qa _ _).mp hc).1

/-- Full inversion of the scheduler: the result is an agent of the
roster, or one of the three transition names / the `END` sentinel
together with the state facts that branch requires. -/
theorem determine_cases (A : List String) (c : Collab) (k : Nat) (s : DebateState)
    (hA : s.active_agents = A) (h1 : 1 ≤ A.length)
    (hkeys : ∀ a ∈ A, a ∈ roleKeys)
    (hstage : s.current_stage = "opening" ∨ s.current_stage = "questioning" ∨
      s.current_stage = "free_debate" ∨ s.current_stage = "closing")
    (hw : s.current_stage = "questioning" → s.waiting_for_answer = true →
      s.current_target ∈ A) :
    (determine_next_node c k s).1 ∈ A ∨
    ((determine_next_node c k s).1 = "questioning" ∧ s.current_stage = "opening" ∧
      A.length ≤ s.stage_progress) ∨
    ((determine_next_node c k s).1 = "free_debate" ∧ s.current_stage = "questioning" ∧
      s.waiting_for_answer = false ∧ A.length ≤ s.questions_asked.length) ∨
    ((determine_next_node c k s).1 = "closing" ∧ s.current_stage = "free_debate") ∨
    ((determine_next_node c k s).1 = "__end__" ∧ s.current_stage = "closing" ∧
      A.length ≤ s.stage_progress) := by
  have hAne : A ≠ [] := by
    intro h
    rw [h] at h1
    simp at h1
  rcases hstage with hst | hst | hst | hst
  · by_cases hp : s.stage_progress < s.active_agents.length
    · refine Or.inl ?_
      have : (determine_next_node c k s).1 = s.active_agents.getD s.stage_progress "" := by
        simp [determine_next_node, hst, hp]
      rw [this, hA]
      exact getD_mem A _ (hA ▸ hp)
    · refine Or.inr (Or.inl ⟨?_, hst, ?_⟩)
      · simp [determine_next_node, hst, hp]
      · rw [← hA]
        omega
  · by_cases hwa : s.waiting_for_answer = true
    · have htg : s.current_target ∈ A := hw hst hwa
      have hcond : s.current_target ≠ "" ∧ s.current_target ∈ s.active_agents :=
        ⟨(roleKeys_not_reserved _ (hkeys _ htg)).2.2.2.2.1, hA ▸ htg⟩
      refine Or.inl ?_
      have : (determine_next_node c k s).1 = s.current_target := by
        simp [determine_next_node, hst, hwa, hcond.1, hcond.2]
      rw [this]
      exact htg
    · by_cases hlen : s.questions_asked.length < s.active_agents.length
      · refine Or.inl ?_
        have : (determine_next_node c k s).1 =
            (select_next_questioner_and_target (c.pick k) (c.pick (k + 1))
              s.active_agents s.questions_asked).1 := by
          simp [determine_next_node, hst, hwa, hlen]
        rw [this, ← hA]
        exact hA ▸ select_fst_mem _ _ _ _ (hA ▸ hAne)
      · refine Or.inr (Or.inr (Or.inl ⟨?_, hst, Bool.not_eq_true _ ▸ hwa, ?_⟩))
        · simp [determine_next_node, hst, hwa, hlen]
        · rw [← hA]
          omega
  · by_cases hr : s.stage_progress / s.active_agents.length + 1 ≤ s.max_rounds
    · refine Or.inl ?_
      have hmod : s.stage_progress % s.active_agents.length < s.active_agents.length := by
        apply Nat.mod_lt
        rw [hA]
        omega
      have : (determine_next_node c k s).1 =
          s.active_agents.getD (s.stage_progress % s.active_agents.length) "" := by
        simp [determine_next_node, hst, hr]
      rw [this, hA]
      exact getD_mem A _ (hA ▸ hmod)
    · refine Or.inr (Or.inr (Or.inr (Or.inl ⟨?_, hst⟩)))
      simp [determine_next_node, hst, hr]
  · by_cases hp : s.stage_progress < s.active_agents.length
    · refine Or.inl ?_
      have : (determine_next_node c k s).1 = s.active_agents.getD s.stage_progress "" := by
        simp [determine_next_node, hst, hp]
      rw [this, hA]
      exact getD_mem A _ (hA ▸ hp)
    · refine Or.inr (Or.inr (Or.inr (Or.inr ⟨?_, hst, ?_⟩)))
      · simp [determine_next_node, hst, hp]
      · rw [← hA]
        omega

theorem reserved_not_mem (A : List String) (hkeys : ∀ a ∈ A, a ∈ roleKeys) (x : String)
    (hx : x ∈ A) :
    x ≠ "questioning" ∧ x ≠ "free_debate" ∧ x ≠ "closing" ∧ x ≠ "__end__" ∧ x ≠ "" ∧
      x ≠ "opening" :=
  roleKeys_not_reserved x (hkeys x hx)

theorem determine_agent_opening (A : List String) (c : Collab) (k : Nat) (s : DebateState)
    (hA : s.active_agents = A) (hkeys : ∀ a ∈ A, a ∈ roleKeys)
    (hst : s.current_stage = "opening")
    (hres : (determine_next_node c k s).1 ∈ A) :
    s.stage_progress < A.length ∧
      (determine_next_node c k s).1 = s.active_agents.getD s.stage_progress "" := by
  by_cases hp : s.stage_progress < s.active_agents.length
  · exact ⟨hA ▸ hp, by simp [determine_next_node, hst, hp]⟩
  · exfalso
    have : (determine_next_node c k s).1 = "questioning" := by
      simp [determine_next_node, hst, hp]
    exact (reserved_not_mem A hkeys _ hres).1 this

theorem determine_agent_closing (A : List String) (c : Collab) (k : Nat) (s : DebateState)
    (hA : s.active_agents = A) (hkeys : ∀ a ∈ A, a ∈ roleKeys)
    (hst : s.current_stage = "closing")
    (hres : (determine_next_node c k s).1 ∈ A) :
    s.stage_progress < A.length ∧
      (determine_next_node c k s).1 = s.active_agents.getD s.stage_progress "" := by
  by_cases hp : s.stage_progress < s.active_agents.length
  · exact ⟨hA ▸ hp, by simp [determine_next_node, hst, hp]⟩
  · exfalso
    have : (determine_next_node c k s).1 = "__end__" := by
      simp [determine_next_node, hst, hp]
    exact (reserved_not_mem A hkeys _ hres).2.2.2.1 this

theorem determine_agent_questioning (A : List String) (c : Collab) (k : Nat) (s : DebateState)
    (hA : s.active_agents = A) (hkeys : ∀ a ∈ A, a ∈ roleKeys)
    (hst : s.current_stage = "questioning")
    (hres : (determine_next_node c k s).1 ∈ A) :
    (s.waiting_for_answer = true ∧ (determine_next_node c k s).1 = s.current_target) ∨
    (s.waiting_for_answer = false ∧ s.questions_asked.length < A.length ∧
      (determine_next_node c k s).1 =
        (select_next_questioner_and_target (c.pick k) (c.pick (k + 1))
          s.active_agents s.questions_asked).1) := by
  by_cases hwa : s.waiting_for_answer = true
  · left
    refine ⟨hwa, ?_⟩
    by_cases hcond : s.current_target ≠ "" ∧ s.current_target ∈ s.active_agents
    · simp [determine_next_node, hst, hwa, hcond.1, hcond.2]
    · exfalso
      have : (determine_next_node c k s).1 = "free_debate" := by
        simp only [determine_next_node]
        rw [if_neg (by rw [hst]; decide), if_pos (by rw [hst]), if_pos hwa, if_neg hcond]
      exact (reserved_not_mem A hkeys _ hres).2.1 this
  · right
    have hwa' : s.waiting_for_answer = false := Bool.not_eq_true _ ▸ hwa
    by_cases hlen : s.questions_asked.length < s.active_agents.length
    · exact ⟨hwa', hA ▸ hlen, by simp [determine_next_node, hst, hwa, hlen]⟩
    · exfalso
      have : (determine_next_node c k s).1 = "free_debate" := by
        simp [determine_next_node, hst, hwa, hlen]
      exact (reserved_not_mem A hkeys _ hres).2.1 this

theorem determine_agent_fd (A : List String) (c : Collab) (k : Nat) (s : DebateState)
    (hA : s.active_agents = A) (hkeys : ∀ a ∈ A, a ∈ roleKeys)
    (hst : s.current_stage = "free_debate")
    (hres : (determine_next_node c k s).1 ∈ A) :
    s.stage_progress / s.active_agents.length + 1 ≤ s.max_rounds ∧
      (determine_next_node c k s).1 =
        s.active_agents.getD (s.stage_progress % s.active_agents.length) "" := by
  by_cases hr : s.stage_progress / s.active_agents.length + 1 ≤ s.max_rounds
  · exact ⟨hr, by simp [determine_next_node, hst, hr]⟩
  · exfalso
    have : (determine_next_node c k s).1 = "closing" := by
      simp [determine_next_node, hst, hr]
    exact (reserved_not_mem A hkeys _ hres).2.2.1 this

theorem hst_state (c : Collab) (s : DebateState) (t : String) (pk : Nat) :
    (handle_stage_transition c s t pk).1 =
      if t = "questioning" then
        { s with
            current_stage := t,
            stage_progress := 0,
            questions_asked := [],
            current_questioner := "",
            current_target := "",
            waiting_for_answer := false }
      else { s with current_stage := t, stage_progress := 0 } := by
  by_cases h : t = "questioning"
  · simp [handle_stage_transition, h]
  · simp [handle_stage_transition, h]

theorem hst_node (c : Collab) (s : DebateState) (t : String) (pk : Nat) :
    (handle_stage_transition c s t pk).2.1 =
      (determine_next_node c pk (handle_stage_transition c s t pk).1).1 := rfl

theorem dictKeys_dictInsert_nodup (m : List (String × String)) (k v : String)
    (h : (dictKeys m).Nodup) : (dictKeys (dictInsert m k v)).Nodup := by
  have hsub : ((m.filter (fun p => decide (p.1 ≠ k))).map Prod.fst).Sublist
      (m.map Prod.fst) :=
    (List.filter_sublist m).map Prod.fst
  have hleft : ((m.filter (fun p => decide (p.1 ≠ k))).map Prod.fst).Nodup :=
    hsub.nodup h
  rw [dictKeys, dictInsert, List.map_append]
  refine List.Nodup.append hleft (by simp) ?_
  intro x hx hk
  have hxk : x = k := by simpa using hk
  rcases List.mem_map.mp hx with ⟨p, hp, hval⟩
  have hne : p.1 ≠ k := by simpa using (List.mem_filter.mp hp).2
  exact hne (hval.trans hxk)

theorem inv_after_transition (A : List String) (nf : Bool) (c : Collab)
    (hnd : A.Nodup) (h3 : 3 ≤ A.length) (hkeys : ∀ a ∈ A, a ∈ roleKeys)
    (s : DebateState) (t : String) (pk ik : Nat) (flog : List String)
    (hA : s.active_agents = A)
    (ht : t = "questioning" ∨ t = "free_debate" ∨ t = "closing")
    (hqmem : ∀ r ∈ s.questions_asked, r.questioner ∈ A)
    (hfd : t = "free_debate" → ∀ a ∈ A, question_count s.questions_asked a = 1)
    (hclq : t = "closing" → ∀ a ∈ A, question_count s.questions_asked a = 1)
    (hflog : ∀ a, flog.count a ≤ 1)
    (hop : nf = true → ∀ a ∈ A, a ∈ dictKeys s.opening_statements)
    (hopk : (dictKeys s.opening_statements).Nodup)
    (hclk : (dictKeys s.closing_statements).Nodup) :
    Inv A nf ⟨(handle_stage_transition c s t pk).2.1, (handle_stage_transition c s t pk).1,
      (handle_stage_transition c s t pk).2.2, ik, flog⟩ := by
  have hAne : A ≠ [] := by
    intro h
    rw [h] at h3
    simp at h3
  have h0 : 0 < s.active_agents.length := by
    rw [hA]
    omega
  rcases ht with rfl | rfl | rfl
  · -- entry into questioning
    have hs2 : (handle_stage_transition c s "questioning" pk).1 =
        { s with
            current_stage := "questioning",
            stage_progress := 0,
            questions_asked := [],
            current_questioner := "",
            current_target := "",
            waiting_for_answer := false } := by
      rw [hst_state]
      simp
    have hnodeeq : (handle_stage_transition c s "questioning" pk).2.1 =
        (select_next_questioner_and_target (c.pick pk) (c.pick (pk + 1))
          s.active_agents []).1 := by
      rw [hst_node, hs2]
      simp [determine_next_node, h0]
    have hnA : (handle_stage_transition c s "questioning" pk).2.1 ∈ A := by
      rw [hnodeeq, hA]
      exact select_fst_mem _ _ A [] hAne
    refine ⟨?_, ?_, ?_, ?_, ?_, ?_, ?_, ?_, ?_, ?_, ?_, ?_, ?_, ?_, ?_, ?_, ?_, ?_, ?_, ?_⟩
    · simp [hs2, hA]
    · simp [hs2]
    · exact Or.inl hnA
    · intro r hr
      have hr2 : r ∈ (handle_stage_transition c s "questioning" pk).1.questions_asked := hr
      rw [hs2] at hr2
      simp at hr2
    · intro _ a _
      show question_count (handle_stage_transition c s "questioning" pk).1.questions_asked
        a ≤ 1
      rw [hs2]
      simp [question_count]
    · intro _ hw
      have hw2 : (handle_stage_transition c s "questioning" pk).1.waiting_for_answer =
        true := hw
      rw [hs2] at hw2
      exact absurd (show (false : Bool) = true from hw2) (by decide)
    · intro hq
      have hq2 := hq
      rw [show (handle_stage_transition c s "questioning" pk).1.current_stage =
        "questioning" from by rw [hs2]] at hq2
      rcases hq2 with h | h
      · exact absurd h (by decide)
      · exact absurd h (by decide)
    · intro _
      show (handle_stage_transition c s "questioning" pk).1.questions_asked = []
      rw [hs2]
    · intro hn
      exact absurd hn (reserved_not_mem A hkeys _ hnA).2.1
    · exact hflog
    · intro hS
      simp [hs2] at hS
    · intro _ hS
      simp [hs2] at hS
    · intro _ hS
      simp [hs2] at hS
    · intro hnf _
      simpa [hs2] using hop hnf
    · intro _ hn
      exact absurd hn (reserved_not_mem A hkeys _ hnA).1
    · intro hn
      exact absurd hn (reserved_not_mem A hkeys _ hnA).2.2.1
    · intro _ hS
      simp [hs2] at hS
    · intro _ hn
      exact absurd hn (reserved_not_mem A hkeys _ hnA).2.2.2.1
    · show (dictKeys
        (handle_stage_transition c s "questioning" pk).1.opening_statements).Nodup
      rw [hs2]
      exact hopk
    · show (dictKeys
        (handle_stage_transition c s "questioning" pk).1.closing_statements).Nodup
      rw [hs2]
      exact hclk
  · -- entry into free_debate
    have hs2 : (handle_stage_transition c s "free_debate" pk).1 =
        { s with current_stage := "free_debate", stage_progress := 0 } := by
      rw [hst_state]
      simp
    have hnode : (handle_stage_transition c s "free_debate" pk).2.1 ∈ A ∨
        (handle_stage_transition c s "free_debate" pk).2.1 = "closing" := by
      rw [hst_node, hs2]
      by_cases hm : 1 ≤ s.max_rounds
      · left
        have : (determine_next_node c pk
            { s with current_stage := "free_debate", stage_progress := 0 }).1 =
            s.active_agents.getD 0 "" := by
          simp [determine_next_node, hm]
        rw [this, hA]
        exact getD_mem A 0 (by omega)
      · right
        simp [determine_next_node, hm]
    refine ⟨?_, ?_, ?_, ?_, ?_, ?_, ?_, ?_, ?_, ?_, ?_, ?_, ?_, ?_, ?_, ?_, ?_, ?_, ?_, ?_⟩
    · simp [hs2, hA]
    · simp [hs2]
    · rcases hnode with h | h
      · exact Or.inl h
      · exact Or.inr (Or.inr (Or.inr (Or.inl h)))
    · intro r hr
      have hr2 : r ∈ (handle_stage_transition c s "free_debate" pk).1.questions_asked := hr
      rw [hs2] at hr2
      exact hqmem r hr2
    · intro hq
      simp [hs2] at hq
    · intro hq
      simp [hs2] at hq
    · intro _
      have := hfd rfl
      intro a ha
      show question_count
        (handle_stage_transition c s "free_debate" pk).1.questions_asked a = 1
      rw [hs2]
      exact this a ha
    · intro hS
      simp [hs2] at hS
    · intro hn
      rcases hnode with h | h
      · exact absurd hn (reserved_not_mem A hkeys _ h).2.1
      · exact absurd (h.symm.trans hn) (by decide)
    · exact hflog
    · intro hS
      simp [hs2] at hS
    · intro _ hS
      simp [hs2] at hS
    · intro _ hS
      simp [hs2] at hS
    · intro hnf _
      simpa [hs2] using hop hnf
    · intro _ hn
      rcases hnode with h | h
      · exact absurd hn (reserved_not_mem A hkeys _ h).1
      · exact absurd (h.symm.trans hn) (by decide)
    · intro _
      simp [hs2]
    · intro _ hS
      simp [hs2] at hS
    · intro _ hn
      rcases hnode with h | h
      · exact absurd hn (reserved_not_mem A hkeys _ h).2.2.2.1
      · exact absurd (h.symm.trans hn) (by decide)
    · show (dictKeys
        (handle_stage_transition c s "free_debate" pk).1.opening_statements).Nodup
      rw [hs2]
      exact hopk
    · show (dictKeys
        (handle_stage_transition c s "free_debate" pk).1.closing_statements).Nodup
      rw [hs2]
      exact hclk
  · -- entry into closing
    have hs2 : (handle_stage_transition c s "closing" pk).1 =
        { s with current_stage := "closing", stage_progress := 0 } := by
      rw [hst_state]
      simp
    have hnA : (handle_stage_transition c s "closing" pk).2.1 ∈ A := by
      rw [hst_node, hs2]
      have : (determine_next_node c pk
          { s with current_stage := "closing", stage_progress := 0 }).1 =
          s.active_agents.getD 0 "" := by
        simp [determine_next_node, h0]
      rw [this, hA]
      exact getD_mem A 0 (by omega)
    refine ⟨?_, ?_, ?_, ?_, ?_, ?_, ?_, ?_, ?_, ?_, ?_, ?_, ?_, ?_, ?_, ?_, ?_, ?_, ?_, ?_⟩
    · simp [hs2, hA]
    · simp [hs2]
    · exact Or.inl hnA
    · intro r hr
      have hr2 : r ∈ (handle_stage_transition c s "closing" pk).1.questions_asked := hr
      rw [hs2] at hr2
      exact hqmem r hr2
    · intro hq
      simp [hs2] at hq
    · intro hq
      simp [hs2] at hq
    · intro _
      have := hclq rfl
      intro a ha
      show question_count
        (handle_stage_transition c s "closing" pk).1.questions_asked a = 1
      rw [hs2]
      exact this a ha
    · intro hS
      simp [hs2] at hS
    · intro hn
      exact absurd hn (reserved_not_mem A hkeys _ hnA).2.1
    · exact hflog
    · intro hS
      simp [hs2] at hS
    · intro _ hS
      simp [hs2] at hS
    · intro _ hS
      simp [hs2] at hS
    · intro hnf _
      simpa [hs2] using hop hnf
    · intro _ hn
      exact absurd hn (reserved_not_mem A hkeys _ hnA).1
    · intro hn
      exact absurd hn (reserved_not_mem A hkeys _ hnA).2.2.1
    · intro _ _ j h hj
      rw [hs2] at hj
      simp at hj
    · intro _ hn
      exact absurd hn (reserved_not_mem A hkeys _ hnA).2.2.2.1
    · show (dictKeys
        (handle_stage_transition c s "closing" pk).1.opening_statements).Nodup
      rw [hs2]
      exact hopk
    · show (dictKeys
        (handle_stage_transition c s "closing" pk).1.closing_statements).Nodup
      rw [hs2]
      exact hclk


/-- Re-target an invariant configuration at a freshly computed scheduler
result: the node-describing fields are derived from the state fields via
`determine_cases`. -/
theorem inv_retarget (A : List String) (nf : Bool) (c : Collab) (k : Nat) (s : DebateState)
    (pk ik pk' ik' : Nat) (flog : List String) (node0 : String)
    (hnd : A.Nodup) (h3 : 3 ≤ A.length) (hkeys : ∀ a ∈ A, a ∈ roleKeys)
    (hinv : Inv A nf ⟨node0, s, pk', ik', flog⟩) :
    Inv A nf ⟨(determine_next_node c k s).1, s, pk, ik, flog⟩ := by
  have hA : s.active_agents = A := hinv.agents
  have hstage := hinv.stage_ok
  have hw : s.current_stage = "questioning" → s.waiting_for_answer = true →
      s.current_target ∈ A := hinv.w_valid
  have hcases := determine_cases A c k s hA (by omega) hkeys hstage hw
  refine ⟨hinv.agents, hinv.stage_ok, ?_, hinv.q_mem, hinv.q_le, hinv.w_valid, hinv.qdone,
    hinv.op_qa, ?_, hinv.fetch_le, hinv.fetch_pending, hinv.op_lt, hinv.op_ge, hinv.op_done,
    ?_, ?_, hinv.cl_lt, ?_, hinv.op_keys, hinv.cl_keys⟩
  · rcases hcases with h | h | h | h | h
    · exact Or.inl h
    · exact Or.inr (Or.inl h.1)
    · exact Or.inr (Or.inr (Or.inl h.1))
    · exact Or.inr (Or.inr (Or.inr (Or.inl h.1)))
    · exact Or.inr (Or.inr (Or.inr (Or.inr h.1)))
  · intro hn
    rcases hcases with h | h | h | h | h
    · exact absurd hn (reserved_not_mem A hkeys _ h).2.1
    · exact absurd (hn.symm.trans h.1) (by decide)
    · refine ⟨h.2.1, ?_⟩
      exact qa_complete A s.questions_asked hnd hinv.q_mem (hinv.q_le h.2.1) h.2.2.2
    · exact absurd (hn.symm.trans h.1) (by decide)
    · exact absurd (hn.symm.trans h.1) (by decide)
  · intro hnf hn
    rcases hcases with h | h | h | h | h
    · exact absurd hn (reserved_not_mem A hkeys _ h).1
    · exact h.2
    · exact absurd (hn.symm.trans h.1) (by decide)
    · exact absurd (hn.symm.trans h.1) (by decide)
    · exact absurd (hn.symm.trans h.1) (by decide)
  · intro hn
    rcases hcases with h | h | h | h | h
    · exact absurd hn (reserved_not_mem A hkeys _ h).2.2.1
    · exact absurd (hn.symm.trans h.1) (by decide)
    · exact absurd (hn.symm.trans h.1) (by decide)
    · exact h.2
    · exact absurd (hn.symm.trans h.1) (by decide)
  · intro hnf hn
    rcases hcases with h | h | h | h | h
    · exact absurd hn (reserved_not_mem A hkeys _ h).2.2.2.1
    · exact absurd (hn.symm.trans h.1) (by decide)
    · exact absurd (hn.symm.trans h.1) (by decide)
    · exact absurd (hn.symm.trans h.1) (by decide)
    · intro a ha
      rcases List.mem_iff_get.mp ha with ⟨j, hj⟩
      have hjlt : (j : Nat) < s.stage_progress := lt_of_lt_of_le j.isLt h.2.2
      have := hinv.cl_lt hnf h.2.1 j j.isLt hjlt
      rwa [hj] at this

theorem rag_not_opening (c : Collab) (a : String) (s : DebateState)
    (h : ¬ s.current_stage = "opening") :
    (get_rag_context_for_agent c a s).cache = s.agent_paper_cache ∧
    (get_rag_context_for_agent c a s).completed = s.first_round_rag_completed ∧
    (get_rag_context_for_agent c a s).fetched = false := by
  by_cases h1 : s.rag_enabled = false
  · simp [get_rag_context_for_agent, h1]
  · have h2 : ¬(s.current_stage = "opening" ∧ a ∉ s.first_round_rag_completed) :=
      fun hc => h hc.1
    by_cases h3 : a ∈ dictKeys s.agent_paper_cache
    · simp [get_rag_context_for_agent, h1, h2, h3]
    · simp [get_rag_context_for_agent, h1, h2, h3]

theorem gen_opening_fields (c : Collab) (s : DebateState) (v : String) (pkg ik : Nat)
    (flog : List String) (hst : s.current_stage = "opening") :
    (_generate_agent_response c s v pkg ik flog).state.current_stage = "opening" ∧
    (_generate_agent_response c s v pkg ik flog).state.stage_progress = s.stage_progress + 1 ∧
    (_generate_agent_response c s v pkg ik flog).state.active_agents = s.active_agents ∧
    (_generate_agent_response c s v pkg ik flog).state.questions_asked = s.questions_asked ∧
    (_generate_agent_response c s v pkg ik flog).state.waiting_for_answer =
      s.waiting_for_answer ∧
    (_generate_agent_response c s v pkg ik flog).state.current_target = s.current_target ∧
    (_generate_agent_response c s v pkg ik flog).state.max_rounds = s.max_rounds ∧
    (_generate_agent_response c s v pkg ik flog).state.closing_statements =
      s.closing_statements ∧
    ((_generate_agent_response c s v pkg ik flog).state.opening_statements =
        s.opening_statements ∨
      ∃ resp, (_generate_agent_response c s v pkg ik flog).state.opening_statements =
        dictInsert s.opening_statements v resp) ∧
    ((∃ tx, c.infer ik = Except.ok tx) →
      ∃ resp, (_generate_agent_response c s v pkg ik flog).state.opening_statements =
        dictInsert s.opening_statements v resp) ∧
    ((_generate_agent_response c s v pkg ik flog).fetchLog = flog ∨
      (_generate_agent_response c s v pkg ik flog).fetchLog = flog ++ [v]) := by
  cases hinf : c.infer ik with
  | error e =>
    by_cases hf : (get_rag_context_for_agent c v s).fetched
    · simp [_generate_agent_response, _generate_opening_statement, hst, hinf, hf, incr]
    · simp [_generate_agent_response, _generate_opening_statement, hst, hinf, hf, incr]
  | ok tx =>
    by_cases hf : (get_rag_context_for_agent c v s).fetched
    · simp [_generate_agent_response, _generate_opening_statement, hst, hinf, hf, incr]
    · simp [_generate_agent_response, _generate_opening_statement, hst, hinf, hf, incr]

theorem gen_fd_fields (c : Collab) (s : DebateState) (v : String) (pkg ik : Nat)
    (flog : List String) (hst : s.current_stage = "free_debate") :
    (_generate_agent_response c s v pkg ik flog).state.current_stage = "free_debate" ∧
    (_generate_agent_response c s v pkg ik flog).state.stage_progress = s.stage_progress + 1 ∧
    (_generate_agent_response c s v pkg ik flog).state.active_agents = s.active_agents ∧
    (_generate_agent_response c s v pkg ik flog).state.questions_asked = s.questions_asked ∧
    (_generate_agent_response c s v pkg ik flog).state.waiting_for_answer =
      s.waiting_for_answer ∧
    (_generate_agent_response c s v pkg ik flog).state.current_target = s.current_target ∧
    (_generate_agent_response c s v pkg ik flog).state.max_rounds = s.max_rounds ∧
    (_generate_agent_response c s v pkg ik flog).state.closing_statements =
      s.closing_statements ∧
    (_generate_agent_response c s v pkg ik flog).state.opening_statements =
      s.opening_statements ∧
    (_generate_agent_response c s v pkg ik flog).fetchLog = flog := by
  have hrag := rag_not_opening c v s (by rw [hst]; decide)
  cases hinf : c.infer ik with
  | error e =>
    simp [_generate_agent_response, _generate_free_debate_response, hst, hinf,
      hrag.2.2, incr]
  | ok tx =>
    simp [_generate_agent_response, _generate_free_debate_response, hst, hinf,
      hrag.2.2, incr]

theorem gen_closing_fields (c : Collab) (s : DebateState) (v : String) (pkg ik : Nat)
    (flog : List String) (hst : s.current_stage = "closing") :
    (_generate_agent_response c s v pkg ik flog).state.current_stage = "closing" ∧
    (_generate_agent_response c s v pkg ik flog).state.stage_progress = s.stage_progress + 1 ∧
    (_generate_agent_response c s v pkg ik flog).state.active_agents = s.active_agents ∧
    (_generate_agent_response c s v pkg ik flog).state.questions_asked = s.questions_asked ∧
    (_generate_agent_response c s v pkg ik flog).state.waiting_for_answer =
      s.waiting_for_answer ∧
    (_generate_agent_response c s v pkg ik flog).state.current_target = s.current_target ∧
    (_generate_agent_response c s v pkg ik flog).state.max_rounds = s.max_rounds ∧
    (_generate_agent_response c s v pkg ik flog).state.opening_statements =
      s.opening_statements ∧
    ((_generate_agent_response c s v pkg ik flog).state.closing_statements =
        s.closing_statements ∨
      ∃ resp, (_generate_agent_response c s v pkg ik flog).state.closing_statements =
        dictInsert s.closing_statements v resp) ∧
    ((∃ tx, c.infer ik = Except.ok tx) →
      ∃ resp, (_generate_agent_response c s v pkg ik flog).state.closing_statements =
        dictInsert s.closing_statements v resp) ∧
    (_generate_agent_response c s v pkg ik flog).fetchLog = flog := by
  have hrag := rag_not_opening c v s (by rw [hst]; decide)
  cases hinf : c.infer ik with
  | error e =>
    simp [_generate_agent_response, _generate_closing_statement, hst, hinf, hrag.2.2, incr]
  | ok tx =>
    simp [_generate_agent_response, _generate_closing_statement, hst, hinf, hrag.2.2, incr]

theorem gen_answer_fields (c : Collab) (s : DebateState) (v : String) (pkg ik : Nat)
    (flog : List String) (hst : s.current_stage = "questioning")
    (hdisp : s.waiting_for_answer = true ∧ s.current_target = v) :
    (_generate_agent_response c s v pkg ik flog).state.current_stage = "questioning" ∧
    (_generate_agent_response c s v pkg ik flog).state.stage_progress = s.stage_progress + 1 ∧
    (_generate_agent_response c s v pkg ik flog).state.active_agents = s.active_agents ∧
    (_generate_agent_response c s v pkg ik flog).state.max_rounds = s.max_rounds ∧
    (_generate_agent_response c s v pkg ik flog).state.opening_statements =
      s.opening_statements ∧
    (_generate_agent_response c s v pkg ik flog).state.closing_statements =
      s.closing_statements ∧
    (_generate_agent_response c s v pkg ik flog).fetchLog = flog ∧
    (((_generate_agent_response c s v pkg ik flog).state.questions_asked =
          s.questions_asked ∧
        (_generate_agent_response c s v pkg ik flog).state.waiting_for_answer =
          s.waiting_for_answer ∧
        (_generate_agent_response c s v pkg ik flog).state.current_target =
          s.current_target) ∨
      (s.questions_asked ≠ [] ∧
        (∃ resp, (_generate_agent_response c s v pkg ik flog).state.questions_asked =
          s.questions_asked.dropLast ++
            [{ s.questions_asked.getLastD ⟨"", "", "", ""⟩ with answer := resp }]) ∧
        (_generate_agent_response c s v pkg ik flog).state.waiting_for_answer = false)) := by
  have hrag := rag_not_opening c v s (by rw [hst]; decide)
  by_cases hqa : s.questions_asked = []
  · simp [_generate_agent_response, _generate_answer, hst, hdisp.1, hdisp.2, hqa, incr]
  · cases hinf : c.infer ik with
    | error e =>
      simp [_generate_agent_response, _generate_answer, hst, hdisp.1, hdisp.2, hqa, hinf,
        hrag.2.2, incr]
    | ok tx =>
      simp only [_generate_agent_response, _generate_answer, hst, hdisp.1, hdisp.2, hqa,
        hinf, hrag.2.2, incr]
      refine ⟨by simp [hdisp.1, hdisp.2, hqa, hinf], by simp [hdisp.1, hdisp.2, hqa, hinf],
        by simp [hdisp.1, hdisp.2, hqa, hinf], by simp [hdisp.1, hdisp.2, hqa, hinf],
        by simp [hdisp.1, hdisp.2, hqa, hinf], by simp [hdisp.1, hdisp.2, hqa, hinf],
        by simp [hdisp.1, hdisp.2, hqa, hinf, hrag.2.2], ?_⟩
      right
      refine ⟨hqa, ⟨formatResp (roleName v) tx, ?_⟩, ?_⟩
      · simp [_generate_agent_response, _generate_answer, hst, hdisp.1, hdisp.2, hqa, hinf]
      · simp [_generate_agent_response, _generate_answer, hst, hdisp.1, hdisp.2, hqa, hinf]

theorem gen_question_fields (c : Collab) (s : DebateState) (v : String) (pkg ik : Nat)
    (flog : List String) (hst : s.current_stage = "questioning")
    (hdisp : ¬(s.waiting_for_answer = true ∧ s.current_target = v)) :
    (_generate_agent_response c s v pkg ik flog).state.current_stage = "questioning" ∧
    (_generate_agent_response c s v pkg ik flog).state.stage_progress = s.stage_progress + 1 ∧
    (_generate_agent_response c s v pkg ik flog).state.active_agents = s.active_agents ∧
    (_generate_agent_response c s v pkg ik flog).state.max_rounds = s.max_rounds ∧
    (_generate_agent_response c s v pkg ik flog).state.opening_statements =
      s.opening_statements ∧
    (_generate_agent_response c s v pkg ik flog).state.closing_statements =
      s.closing_statements ∧
    (_generate_agent_response c s v pkg ik flog).fetchLog = flog ∧
    (((_generate_agent_response c s v pkg ik flog).state.questions_asked =
          s.questions_asked ∧
        (_generate_agent_response c s v pkg ik flog).state.waiting_for_answer =
          s.waiting_for_answer ∧
        (_generate_agent_response c s v pkg ik flog).state.current_target =
          s.current_target) ∨
      (v = (select_next_questioner_and_target (c.pick pkg) (c.pick (pkg + 1))
          s.active_agents s.questions_asked).1 ∧
        (∃ resp, (_generate_agent_response c s v pkg ik flog).state.questions_asked =
          s.questions_asked ++
            [⟨v, (select_next_questioner_and_target (c.pick pkg) (c.pick (pkg + 1))
              s.active_agents s.questions_asked).2, resp, ""⟩]) ∧
        (_generate_agent_response c s v pkg ik flog).state.waiting_for_answer = true ∧
        (_generate_agent_response c s v pkg ik flog).state.current_target =
          (select_next_questioner_and_target (c.pick pkg) (c.pick (pkg + 1))
            s.active_agents s.questions_asked).2)) := by
  have hrag := rag_not_opening c v s (by rw [hst]; decide)
  by_cases hmis : v ≠ (select_next_questioner_and_target (c.pick pkg) (c.pick (pkg + 1))
      s.active_agents s.questions_asked).1
  · simp [_generate_agent_response, _generate_question, hst, hdisp, hmis, incr]
  · cases hinf : c.infer ik with
    | error e =>
      simp [_generate_agent_response, _generate_question, hst, hdisp, hmis, hinf,
        hrag.2.2, incr]
    | ok tx =>
      have hveq : v = (select_next_questioner_and_target (c.pick pkg) (c.pick (pkg + 1))
          s.active_agents s.questions_asked).1 := not_not.mp (by exact hmis)
      refine ⟨by simp [_generate_agent_response, _generate_question, hst, hdisp, hmis, hinf,
          hrag.2.2, incr],
        by simp [_generate_agent_response, _generate_question, hst, hdisp, hmis, hinf,
          hrag.2.2, incr],
        by simp [_generate_agent_response, _generate_question, hst, hdisp, hmis, hinf,
          hrag.2.2, incr],
        by simp [_generate_agent_response, _generate_question, hst, hdisp, hmis, hinf,
          hrag.2.2, incr],
        by simp [_generate_agent_response, _generate_question, hst, hdisp, hmis, hinf,
          hrag.2.2, incr],
        by simp [_generate_agent_response, _generate_question, hst, hdisp, hmis, hinf,
          hrag.2.2, incr],
        by simp [_generate_agent_response, _generate_question, hst, hdisp, hmis, hinf,
          hrag.2.2, incr], ?_⟩
      right
      refine ⟨hveq, ⟨formatResp (roleName v) tx, ?_⟩, ?_, ?_⟩
      · simp [_generate_agent_response, _generate_question, hst, hdisp, hmis, hinf, incr]
      · simp [_generate_agent_response, _generate_question, hst, hdisp, hmis, hinf, incr]
      · simp [_generate_agent_response, _generate_question, hst, hdisp, hmis, hinf, incr]

theorem inv_gen_opening (A : List String) (nf : Bool) (c : Collab)
    (hnd : A.Nodup) (h3 : 3 ≤ A.length) (hkeys : ∀ a ∈ A, a ∈ roleKeys)
    (hok : nf = true → ∀ i, ∃ tx, c.infer i = Except.ok tx)
    (s : DebateState) (v : String) (pk0 pkg ik pk2 ik2 : Nat) (flog : List String)
    (hinv : Inv A nf ⟨v, s, pk0, ik, flog⟩)
    (hv : v ∈ A)
    (hroute : (determine_next_node c pk0 s).1 = v)
    (hst : s.current_stage = "opening") :
    Inv A nf ⟨v, (_generate_agent_response c s v pkg ik flog).state, pk2, ik2,
      (_generate_agent_response c s v pkg ik flog).fetchLog⟩ := by
  obtain ⟨F1, F2, F3, F4, F5, F6, F7, F8, F9, F10, F11⟩ :=
    gen_opening_fields c s v pkg ik flog hst
  have hag := determine_agent_opening A c pk0 s hinv.agents hkeys hst (hroute ▸ hv)
  have hpr : s.stage_progress < A.length := hag.1
  have hvget : v = A.get ⟨s.stage_progress, hpr⟩ := by
    have h1 : v = s.active_agents.getD s.stage_progress "" := hroute ▸ hag.2
    rw [h1, hinv.agents, List.getD_eq_getElem A "" hpr]
    simp [List.get_eq_getElem]
  refine ⟨?_, ?_, ?_, ?_, ?_, ?_, ?_, ?_, ?_, ?_, ?_, ?_, ?_, ?_, ?_, ?_, ?_, ?_, ?_, ?_⟩
  · exact F3.trans hinv.agents
  · exact Or.inl F1
  · exact Or.inl hv
  · intro r hr
    have hr2 : r ∈ (_generate_agent_response c s v pkg ik flog).state.questions_asked := hr
    rw [F4] at hr2
    exact hinv.q_mem r hr2
  · intro hq
    exact absurd (F1.symm.trans hq) (by decide)
  · intro hq
    exact absurd (F1.symm.trans hq) (by decide)
  · intro hq
    rcases hq with hq | hq
    · exact absurd (F1.symm.trans hq) (by decide)
    · exact absurd (F1.symm.trans hq) (by decide)
  · intro _
    show (_generate_agent_response c s v pkg ik flog).state.questions_asked = []
    rw [F4]
    exact hinv.op_qa hst
  · intro hn
    exact absurd hn (reserved_not_mem A hkeys v hv).2.1
  · intro a
    show (_generate_agent_response c s v pkg ik flog).fetchLog.count a ≤ 1
    rcases F11 with hfl | hfl
    · rw [hfl]
      exact hinv.fetch_le a
    · rw [hfl, List.count_append]
      by_cases hav : a = v
      · have hz : flog.count a = 0 := by
          rw [hav, hvget]
          exact hinv.fetch_pending hst s.stage_progress hpr le_rfl
        rw [hz, hav]
        simp
      · have : List.count a [v] = 0 := by
          simp [List.count_singleton]
          exact fun h => hav h.symm
        rw [this]
        have hfle : flog.count a ≤ 1 := hinv.fetch_le a
        omega
  · intro hS j h hj
    have hj' : (_generate_agent_response c s v pkg ik flog).state.stage_progress ≤ j := hj
    rw [F2] at hj'
    show (_generate_agent_response c s v pkg ik flog).fetchLog.count (A.get ⟨j, h⟩) = 0
    have hold : flog.count (A.get ⟨j, h⟩) = 0 :=
      hinv.fetch_pending hst j h (show s.stage_progress ≤ j by omega)
    rcases F11 with hfl | hfl
    · rw [hfl]
      exact hold
    · rw [hfl, List.count_append, hold]
      have hne : A.get ⟨j, h⟩ ≠ v := by
        rw [hvget]
        intro heq
        have := (List.Nodup.get_inj_iff hnd).mp heq
        have : j = s.stage_progress := by
          simpa using this
        omega
      have : List.count (A.get ⟨j, h⟩) [v] = 0 := by
        simp [List.count_singleton]
        intro hc
        exact hne (by simpa [List.get_eq_getElem] using hc.symm)
      omega
  · intro hnf hS j h hj
    have hj' : j < (_generate_agent_response c s v pkg ik flog).state.stage_progress := hj
    rw [F2] at hj'
    obtain ⟨resp, hins⟩ := F10 (hok hnf ik)
    show A.get ⟨j, h⟩ ∈
      dictKeys (_generate_agent_response c s v pkg ik flog).state.opening_statements
    rw [hins, mem_dictKeys_dictInsert]
    by_cases hjp : j < s.stage_progress
    · exact Or.inr (hinv.op_lt hnf hst j h hjp)
    · have : j = s.stage_progress := by omega
      subst this
      left
      rw [hvget]
  · intro hnf hS j h hj
    have hj' : (_generate_agent_response c s v pkg ik flog).state.stage_progress ≤ j := hj
    rw [F2] at hj'
    show ¬ A.get ⟨j, h⟩ ∈
      dictKeys (_generate_agent_response c s v pkg ik flog).state.opening_statements
    obtain ⟨resp, hins⟩ := F10 (hok hnf ik)
    rw [hins, mem_dictKeys_dictInsert]
    rintro (heq | hmem)
    · rw [hvget] at heq
      have := (List.Nodup.get_inj_iff hnd).mp heq
      have : j = s.stage_progress := by simpa using this
      omega
    · exact hinv.op_ge hnf hst j h (show s.stage_progress ≤ j by omega) hmem
  · intro hnf hS
    exact absurd F1 hS
  · intro hnf hn
    exact absurd hn (reserved_not_mem A hkeys v hv).1
  · intro hn
    exact absurd hn (reserved_not_mem A hkeys v hv).2.2.1
  · intro hnf hS
    exact absurd (F1.symm.trans hS) (by decide)
  · intro hnf hn
    exact absurd hn (reserved_not_mem A hkeys v hv).2.2.2.1
  · show (dictKeys
      (_generate_agent_response c s v pkg ik flog).state.opening_statements).Nodup
    rcases F9 with h9 | ⟨resp, h9⟩
    · rw [h9]
      exact hinv.op_keys
    · rw [h9]
      exact dictKeys_dictInsert_nodup _ _ _ hinv.op_keys
  · show (dictKeys
      (_generate_agent_response c s v pkg ik flog).state.closing_statements).Nodup
    rw [F8]
    exact hinv.cl_keys

theorem inv_gen_fd (A : List String) (nf : Bool) (c : Collab)
    (hnd : A.Nodup) (h3 : 3 ≤ A.length) (hkeys : ∀ a ∈ A, a ∈ roleKeys)
    (s : DebateState) (v : String) (pk0 pkg ik pk2 ik2 : Nat) (flog : List String)
    (hinv : Inv A nf ⟨v, s, pk0, ik, flog⟩)
    (hv : v ∈ A)
    (hst : s.current_stage = "free_debate") :
    Inv A nf ⟨v, (_generate_agent_response c s v pkg ik flog).state, pk2, ik2,
      (_generate_agent_response c s v pkg ik flog).fetchLog⟩ := by
  obtain ⟨F1, F2, F3, F4, F5, F6, F7, F8, F9, F10⟩ := gen_fd_fields c s v pkg ik flog hst
  refine ⟨?_, ?_, ?_, ?_, ?_, ?_, ?_, ?_, ?_, ?_, ?_, ?_, ?_, ?_, ?_, ?_, ?_, ?_, ?_, ?_⟩
  · exact F3.trans hinv.agents
  · exact Or.inr (Or.inr (Or.inl F1))
  · exact Or.inl hv
  · intro r hr
    have hr2 : r ∈ (_generate_agent_response c s v pkg ik flog).state.questions_asked := hr
    rw [F4] at hr2
    exact hinv.q_mem r hr2
  · intro hq
    exact absurd (F1.symm.trans hq) (by decide)
  · intro hq
    exact absurd (F1.symm.trans hq) (by decide)
  · intro _ a ha
    show question_count (_generate_agent_response c s v pkg ik flog).state.questions_asked
      a = 1
    rw [F4]
    exact hinv.qdone (Or.inl hst) a ha
  · intro hS
    exact absurd (F1.symm.trans hS) (by decide)
  · intro hn
    exact absurd hn (reserved_not_mem A hkeys v hv).2.1
  · intro a
    show (_generate_agent_response c s v pkg ik flog).fetchLog.count a ≤ 1
    rw [F10]
    exact hinv.fetch_le a
  · intro hS
    exact absurd (F1.symm.trans hS) (by decide)
  · intro hnf hS
    exact absurd (F1.symm.trans hS) (by decide)
  · intro hnf hS
    exact absurd (F1.symm.trans hS) (by decide)
  · intro hnf _
    intro a ha
    show a ∈ dictKeys (_generate_agent_response c s v pkg ik flog).state.opening_statements
    rw [F9]
    exact hinv.op_done hnf (by rw [hst]; decide) a ha
  · intro hnf hn
    exact absurd hn (reserved_not_mem A hkeys v hv).1
  · intro hn
    exact absurd hn (reserved_not_mem A hkeys v hv).2.2.1
  · intro hnf hS
    exact absurd (F1.symm.trans hS) (by decide)
  · intro hnf hn
    exact absurd hn (reserved_not_mem A hkeys v hv).2.2.2.1
  · show (dictKeys
      (_generate_agent_response c s v pkg ik flog).state.opening_statements).Nodup
    rw [F9]
    exact hinv.op_keys
  · show (dictKeys
      (_generate_agent_response c s v pkg ik flog).state.closing_statements).Nodup
    rw [F8]
    exact hinv.cl_keys

theorem inv_gen_closing (A : List String) (nf : Bool) (c : Collab)
    (hnd : A.Nodup) (h3 : 3 ≤ A.length) (hkeys : ∀ a ∈ A, a ∈ roleKeys)
    (hok : nf = true → ∀ i, ∃ tx, c.infer i = Except.ok tx)
    (s : DebateState) (v : String) (pk0 pkg ik pk2 ik2 : Nat) (flog : List String)
    (hinv : Inv A nf ⟨v, s, pk0, ik, flog⟩)
    (hv : v ∈ A)
    (hroute : (determine_next_node c pk0 s).1 = v)
    (hst : s.current_stage = "closing") :
    Inv A nf ⟨v, (_generate_agent_response c s v pkg ik flog).state, pk2, ik2,
      (_generate_agent_response c s v pkg ik flog).fetchLog⟩ := by
  obtain ⟨F1, F2, F3, F4, F5, F6, F7, F8, F9, F10, F11⟩ :=
    gen_closing_fields c s v pkg ik flog hst
  have hag := determine_agent_closing A c pk0 s hinv.agents hkeys hst (hroute ▸ hv)
  have hpr : s.stage_progress < A.length := hag.1
  have hvget : v = A.get ⟨s.stage_progress, hpr⟩ := by
    have h1 : v = s.active_agents.getD s.stage_progress "" := hroute ▸ hag.2
    rw [h1, hinv.agents, List.getD_eq_getElem A "" hpr]
    simp [List.get_eq_getElem]
  refine ⟨?_, ?_, ?_, ?_, ?_, ?_, ?_, ?_, ?_, ?_, ?_, ?_, ?_, ?_, ?_, ?_, ?_, ?_, ?_, ?_⟩
  · exact F3.trans hinv.agents
  · exact Or.inr (Or.inr (Or.inr F1))
  · exact Or.inl hv
  · intro r hr
    have hr2 : r ∈ (_generate_agent_response c s v pkg ik flog).state.questions_asked := hr
    rw [F4] at hr2
    exact hinv.q_mem r hr2
  · intro hq
    exact absurd (F1.symm.trans hq) (by decide)
  · intro hq
    exact absurd (F1.symm.trans hq) (by decide)
  · intro _ a ha
    show question_count (_generate_agent_response c s v pkg ik flog).state.questions_asked
      a = 1
    rw [F4]
    exact hinv.qdone (Or.inr hst) a ha
  · intro hS
    exact absurd (F1.symm.trans hS) (by decide)
  · intro hn
    exact absurd hn (reserved_not_mem A hkeys v hv).2.1
  · intro a
    show (_generate_agent_response c s v pkg ik flog).fetchLog.count a ≤ 1
    rw [F11]
    exact hinv.fetch_le a
  · intro hS
    exact absurd (F1.symm.trans hS) (by decide)
  · intro hnf hS
    exact absurd (F1.symm.trans hS) (by decide)
  · intro hnf hS
    exact absurd (F1.symm.trans hS) (by decide)
  · intro hnf _
    intro a ha
    show a ∈ dictKeys (_generate_agent_response c s v pkg ik flog).state.opening_statements
    rw [F8]
    exact hinv.op_done hnf (by rw [hst]; decide) a ha
  · intro hnf hn
    exact absurd hn (reserved_not_mem A hkeys v hv).1
  · intro hn
    exact absurd hn (reserved_not_mem A hkeys v hv).2.2.1
  · intro hnf hS j h hj
    have hj' : j < (_generate_agent_response c s v pkg ik flog).state.stage_progress := hj
    rw [F2] at hj'
    obtain ⟨resp, hins⟩ := F10 (hok hnf ik)
    show A.get ⟨j, h⟩ ∈
      dictKeys (_generate_agent_response c s v pkg ik flog).state.closing_statements
    rw [hins, mem_dictKeys_dictInsert]
    by_cases hjp : j < s.stage_progress
    · exact Or.inr (hinv.cl_lt hnf hst j h hjp)
    · have : j = s.stage_progress := by omega
      subst this
      left
      rw [hvget]
  · intro hnf hn
    exact absurd hn (reserved_not_mem A hkeys v hv).2.2.2.1
  · show (dictKeys
      (_generate_agent_response c s v pkg ik flog).state.opening_statements).Nodup
    rw [F8]
    exact hinv.op_keys
  · show (dictKeys
      (_generate_agent_response c s v pkg ik flog).state.closing_statements).Nodup
    rcases F9 with h9 | ⟨resp, h9⟩
    · rw [h9]
      exact hinv.cl_keys
    · rw [h9]
      exact dictKeys_dictInsert_nodup _ _ _ hinv.cl_keys

theorem inv_gen_questioning (A : List String) (nf : Bool) (c : Collab)
    (hnd : A.Nodup) (h3 : 3 ≤ A.length) (hkeys : ∀ a ∈ A, a ∈ roleKeys)
    (s : DebateState) (v : String) (pk0 pkg ik pk2 ik2 : Nat) (flog : List String)
    (hinv : Inv A nf ⟨v, s, pk0, ik, flog⟩)
    (hv : v ∈ A)
    (hroute : (determine_next_node c pk0 s).1 = v)
    (hst : s.current_stage = "questioning") :
    Inv A nf ⟨v, (_generate_agent_response c s v pkg ik flog).state, pk2, ik2,
      (_generate_agent_response c s v pkg ik flog).fetchLog⟩ := by
  have hndA : s.active_agents.Nodup := by
    rw [hinv.agents]
    exact hnd
  by_cases hd : s.waiting_for_answer = true ∧ s.current_target = v
  · obtain ⟨F1, F2, F3, F4, F5, F6, F7, FQ⟩ := gen_answer_fields c s v pkg ik flog hst hd
    refine ⟨?_, ?_, ?_, ?_, ?_, ?_, ?_, ?_, ?_, ?_, ?_, ?_, ?_, ?_, ?_, ?_, ?_, ?_, ?_, ?_⟩
    · exact F3.trans hinv.agents
    · exact Or.inr (Or.inl F1)
    · exact Or.inl hv
    · intro r hr
      have hr2 : r ∈ (_generate_agent_response c s v pkg ik flog).state.questions_asked := hr
      rcases FQ with ⟨hqa, hw, htg⟩ | ⟨hne, ⟨resp, hqa⟩, hw⟩
      · rw [hqa] at hr2
        exact hinv.q_mem r hr2
      · rw [hqa] at hr2
        exact mem_questioner_answer_update s.questions_asked _ resp A hne
          hinv.q_mem r hr2
    · intro _ a ha
      show question_count
        (_generate_agent_response c s v pkg ik flog).state.questions_asked a ≤ 1
      rcases FQ with ⟨hqa, hw, htg⟩ | ⟨hne, ⟨resp, hqa⟩, hw⟩
      · rw [hqa]
        exact hinv.q_le hst a ha
      · rw [hqa, question_count_answer_update _ _ _ _ hne]
        exact hinv.q_le hst a ha
    · intro _ hw'
      have hw2 : (_generate_agent_response c s v pkg ik flog).state.waiting_for_answer =
        true := hw'
      show (_generate_agent_response c s v pkg ik flog).state.current_target ∈ A
      rcases FQ with ⟨hqa, hw, htg⟩ | ⟨hne, ⟨resp, hqa⟩, hw⟩
      · rw [hw] at hw2
        rw [htg]
        exact hinv.w_valid hst hw2
      · rw [hw] at hw2
        exact absurd hw2 (by decide)
    · intro hq
      rcases hq with hq | hq
      · exact absurd (F1.symm.trans hq) (by decide)
      · exact absurd (F1.symm.trans hq) (by decide)
    · intro hS
      exact absurd (F1.symm.trans hS) (by decide)
    · intro hn
      exact absurd hn (reserved_not_mem A hkeys v hv).2.1
    · intro a
      show (_generate_agent_response c s v pkg ik flog).fetchLog.count a ≤ 1
      rw [F7]
      exact hinv.fetch_le a
    · intro hS
      exact absurd (F1.symm.trans hS) (by decide)
    · intro hnf hS
      exact absurd (F1.symm.trans hS) (by decide)
    · intro hnf hS
      exact absurd (F1.symm.trans hS) (by decide)
    · intro hnf _ a ha
      show a ∈ dictKeys
        (_generate_agent_response c s v pkg ik flog).state.opening_statements
      rw [F5]
      exact hinv.op_done hnf (by rw [hst]; decide) a ha
    · intro hnf hn
      exact absurd hn (reserved_not_mem A hkeys v hv).1
    · intro hn
      exact absurd hn (reserved_not_mem A hkeys v hv).2.2.1
    · intro hnf hS
      exact absurd (F1.symm.trans hS) (by decide)
    · intro hnf hn
      exact absurd hn (reserved_not_mem A hkeys v hv).2.2.2.1
    · show (dictKeys
        (_generate_agent_response c s v pkg ik flog).state.opening_statements).Nodup
      rw [F5]
      exact hinv.op_keys
    · show (dictKeys
        (_generate_agent_response c s v pkg ik flog).state.closing_statements).Nodup
      rw [F6]
      exact hinv.cl_keys
  · obtain ⟨F1, F2, F3, F4, F5, F6, F7, FQ⟩ := gen_question_fields c s v pkg ik flog hst hd
    have hag := determine_agent_questioning A c pk0 s hinv.agents hkeys hst (hroute ▸ hv)
    have hwlen : s.waiting_for_answer = false ∧ s.questions_asked.length < A.length := by
      rcases hag with ⟨hw, heq⟩ | ⟨hwf, hlen, _⟩
      · exact absurd ⟨hw, heq.symm.trans hroute⟩ hd
      · exact ⟨hwf, hlen⟩
    refine ⟨?_, ?_, ?_, ?_, ?_, ?_, ?_, ?_, ?_, ?_, ?_, ?_, ?_, ?_, ?_, ?_, ?_, ?_, ?_, ?_⟩
    · exact F3.trans hinv.agents
    · exact Or.inr (Or.inl F1)
    · exact Or.inl hv
    · intro r hr
      have hr2 : r ∈ (_generate_agent_response c s v pkg ik flog).state.questions_asked := hr
      rcases FQ with ⟨hqa, hw, htg⟩ | ⟨hveq, ⟨resp, hqa⟩, hw, htg⟩
      · rw [hqa] at hr2
        exact hinv.q_mem r hr2
      · rw [hqa] at hr2
        rcases List.mem_append.mp hr2 with hr3 | hr3
        · exact hinv.q_mem r hr3
        · have : r = ⟨v, (select_next_questioner_and_target (c.pick pkg) (c.pick (pkg + 1))
              s.active_agents s.questions_asked).2, resp, ""⟩ := List.mem_singleton.mp hr3
          rw [this]
          exact hv
    · intro _ a ha
      show question_count
        (_generate_agent_response c s v pkg ik flog).state.questions_asked a ≤ 1
      rcases FQ with ⟨hqa, hw, htg⟩ | ⟨hveq, ⟨resp, hqa⟩, hw, htg⟩
      · rw [hqa]
        exact hinv.q_le hst a ha
      · rw [hqa, question_count_append_one]
        by_cases hav : v = a
        · have hz : question_count s.questions_asked a = 0 := by
            rw [← hav, hveq]
            exact selected_questioner_count_zero (c.pick pkg) (c.pick (pkg + 1))
              s.active_agents s.questions_asked hndA
              (fun r hr => by
                rw [hinv.agents]
                exact hinv.q_mem r hr)
              (by
                rw [hinv.agents]
                exact hwlen.2)
          simp [hz, hav]
        · have hle := hinv.q_le hst a ha
          simp only [hav, if_false]
          simpa using hle
    · intro _ hw'
      have hw2 : (_generate_agent_response c s v pkg ik flog).state.waiting_for_answer =
        true := hw'
      show (_generate_agent_response c s v pkg ik flog).state.current_target ∈ A
      rcases FQ with ⟨hqa, hw, htg⟩ | ⟨hveq, ⟨resp, hqa⟩, hw, htg⟩
      · rw [hw] at hw2
        rw [htg]
        exact hinv.w_valid hst hw2
      · rw [htg]
        have hmem2 := (select_snd_mem (c.pick pkg) (c.pick (pkg + 1)) s.active_agents
          s.questions_asked hndA (by rw [hinv.agents]; omega)).1
        rw [← hinv.agents]
        exact hmem2
    · intro hq
      rcases hq with hq | hq
      · exact absurd (F1.symm.trans hq) (by decide)
      · exact absurd (F1.symm.trans hq) (by decide)
    · intro hS
      exact absurd (F1.symm.trans hS) (by decide)
    · intro hn
      exact absurd hn (reserved_not_mem A hkeys v hv).2.1
    · intro a
      show (_generate_agent_response c s v pkg ik flog).fetchLog.count a ≤ 1
      rw [F7]
      exact hinv.fetch_le a
    · intro hS
      exact absurd (F1.symm.trans hS) (by decide)
    · intro hnf hS
      exact absurd (F1.symm.trans hS) (by decide)
    · intro hnf hS
      exact absurd (F1.symm.trans hS) (by decide)
    · intro hnf _ a ha
      show a ∈ dictKeys
        (_generate_agent_response c s v pkg ik flog).state.opening_statements
      rw [F5]
      exact hinv.op_done hnf (by rw [hst]; decide) a ha
    · intro hnf hn
      exact absurd hn (reserved_not_mem A hkeys v hv).1
    · intro hn
      exact absurd hn (reserved_not_mem A hkeys v hv).2.2.1
    · intro hnf hS
      exact absurd (F1.symm.trans hS) (by decide)
    · intro hnf hn
      exact absurd hn (reserved_not_mem A hkeys v hv).2.2.2.1
    · show (dictKeys
        (_generate_agent_response c s v pkg ik flog).state.opening_statements).Nodup
      rw [F5]
      exact hinv.op_keys
    · show (dictKeys
        (_generate_agent_response c s v pkg ik flog).state.closing_statements).Nodup
      rw [F6]
      exact hinv.cl_keys


/-- One step of the orchestrated loop preserves the invariant. -/
theorem inv_step (A : List String) (nf : Bool) (c : Collab) (cfg : Config)
    (hnd : A.Nodup) (h3 : 3 ≤ A.length) (hkeys : ∀ a ∈ A, a ∈ roleKeys)
    (hok : nf = true → ∀ i, ∃ tx, c.infer i = Except.ok tx)
    (hinv : Inv A nf cfg) : Inv A nf (step c cfg).1 := by
  by_cases hend : cfg.node = "__end__"
  · simp only [step, if_pos hend]
    exact hinv
  by_cases hsn : cfg.node = "questioning" ∨ cfg.node = "free_debate" ∨ cfg.node = "closing"
  · simp only [step, if_neg hend, if_pos hsn]
    refine inv_after_transition A nf c hnd h3 hkeys cfg.state cfg.node cfg.pk cfg.ik
      cfg.fetchLog hinv.agents hsn hinv.q_mem ?_ ?_ hinv.fetch_le ?_ hinv.op_keys
      hinv.cl_keys
    · intro hfd'
      exact (hinv.node_fd hfd').2
    · intro hcl'
      exact hinv.qdone (Or.inl (hinv.node_cl hcl'))
    · intro hnf
      rcases hsn with h | h | h
      · obtain ⟨hstop, hprog⟩ := hinv.node_q hnf h
        intro a ha
        rcases List.mem_iff_get.mp ha with ⟨j, hj⟩
        have := hinv.op_lt hnf hstop j j.isLt (lt_of_lt_of_le j.isLt hprog)
        rwa [hj] at this
      · have hq := (hinv.node_fd h).1
        exact hinv.op_done hnf (by rw [hq]; decide)
      · have hq := hinv.node_cl h
        exact hinv.op_done hnf (by rw [hq]; decide)
  · have hvA : cfg.node ∈ A := by
      rcases hinv.node_ok with h | h | h | h | h
      · exact h
      · exact absurd (Or.inl h) hsn
      · exact absurd (Or.inr (Or.inl h)) hsn
      · exact absurd (Or.inr (Or.inr h)) hsn
      · exact absurd h hend
    have hinvR : Inv A nf ⟨(determine_next_node c cfg.pk cfg.state).1, cfg.state,
        (determine_next_node c cfg.pk cfg.state).2, cfg.ik, cfg.fetchLog⟩ :=
      inv_retarget A nf c cfg.pk cfg.state (determine_next_node c cfg.pk cfg.state).2
        cfg.ik cfg.pk cfg.ik cfg.fetchLog cfg.node hnd h3 hkeys hinv
    by_cases hnx : (determine_next_node c cfg.pk cfg.state).1 = "questioning" ∨
        (determine_next_node c cfg.pk cfg.state).1 = "free_debate" ∨
        (determine_next_node c cfg.pk cfg.state).1 = "closing"
    · simp only [step, if_neg hend, if_neg hsn, if_pos hnx]
      refine inv_after_transition A nf c hnd h3 hkeys cfg.state
        (determine_next_node c cfg.pk cfg.state).1
        (determine_next_node c cfg.pk cfg.state).2 cfg.ik
        cfg.fetchLog hinv.agents hnx hinv.q_mem ?_ ?_ hinv.fetch_le ?_ hinv.op_keys
        hinv.cl_keys
      · intro hfd'
        exact (hinvR.node_fd hfd').2
      · intro hcl'
        exact hinv.qdone (Or.inl (hinvR.node_cl hcl'))
      · intro hnf
        rcases hnx with h | h | h
        · obtain ⟨hstop, hprog⟩ := hinvR.node_q hnf h
          intro a ha
          rcases List.mem_iff_get.mp ha with ⟨j, hj⟩
          have := hinv.op_lt hnf hstop j j.isLt (lt_of_lt_of_le j.isLt hprog)
          rwa [hj] at this
        · have hq := (hinvR.node_fd h).1
          exact hinv.op_done hnf (by rw [show cfg.state.current_stage = "questioning" from hq]; decide)
        · have hq := hinvR.node_cl h
          exact hinv.op_done hnf (by rw [show cfg.state.current_stage = "free_debate" from hq]; decide)
    · by_cases hne2 : (determine_next_node c cfg.pk cfg.state).1 = "__end__"
      · simp only [step, if_neg hend, if_neg hsn, if_neg hnx, if_pos hne2]
        refine ⟨hinv.agents, hinv.stage_ok, Or.inr (Or.inr (Or.inr (Or.inr rfl))),
          hinv.q_mem, hinv.q_le, hinv.w_valid, hinv.qdone, hinv.op_qa, ?_, hinv.fetch_le,
          hinv.fetch_pending, hinv.op_lt, hinv.op_ge, hinv.op_done, ?_, ?_, hinv.cl_lt, ?_,
          hinv.op_keys, hinv.cl_keys⟩
        · intro hn
          exact absurd (show ("__end__" : String) = "free_debate" from hn) (by decide)
        · intro _ hn
          exact absurd (show ("__end__" : String) = "questioning" from hn) (by decide)
        · intro hn
          exact absurd (show ("__end__" : String) = "closing" from hn) (by decide)
        · intro hnf _
          exact hinvR.cl_done hnf hne2
      · by_cases hagain : (determine_next_node c cfg.pk cfg.state).1 ≠ cfg.node
        · simp only [step, if_neg hend, if_neg hsn, if_neg hnx, if_neg hne2, if_pos hagain]
          exact hinvR
        · simp only [step, if_neg hend, if_neg hsn, if_neg hnx, if_neg hne2, if_neg hagain]
          have hroute : (determine_next_node c cfg.pk cfg.state).1 = cfg.node :=
            not_ne_iff.mp hagain
          have hgen : Inv A nf ⟨cfg.node,
              (_generate_agent_response c cfg.state cfg.node
                (determine_next_node c cfg.pk cfg.state).2 cfg.ik cfg.fetchLog).state, 0, 0,
              (_generate_agent_response c cfg.state cfg.node
                (determine_next_node c cfg.pk cfg.state).2 cfg.ik cfg.fetchLog).fetchLog⟩ := by
            rcases hinv.stage_ok with hst | hst | hst | hst
            · exact inv_gen_opening A nf c hnd h3 hkeys hok cfg.state cfg.node cfg.pk
                (determine_next_node c cfg.pk cfg.state).2 cfg.ik 0 0 cfg.fetchLog hinv hvA
                hroute hst
            · exact inv_gen_questioning A nf c hnd h3 hkeys cfg.state cfg.node cfg.pk
                (determine_next_node c cfg.pk cfg.state).2 cfg.ik 0 0 cfg.fetchLog hinv hvA
                hroute hst
            · exact inv_gen_fd A nf c hnd h3 hkeys cfg.state cfg.node cfg.pk
                (determine_next_node c cfg.pk cfg.state).2 cfg.ik 0 0 cfg.fetchLog hinv hvA
                hst
            · exact inv_gen_closing A nf c hnd h3 hkeys hok cfg.state cfg.node cfg.pk
                (determine_next_node c cfg.pk cfg.state).2 cfg.ik 0 0 cfg.fetchLog hinv hvA
                hroute hst
          exact inv_retarget A nf c
            (_generate_agent_response c cfg.state cfg.node
              (determine_next_node c cfg.pk cfg.state).2 cfg.ik cfg.fetchLog).pk
            (_generate_agent_response c cfg.state cfg.node
              (determine_next_node c cfg.pk cfg.state).2 cfg.ik cfg.fetchLog).state
            (determine_next_node c
              (_generate_agent_response c cfg.state cfg.node
                (determine_next_node c cfg.pk cfg.state).2 cfg.ik cfg.fetchLog).pk
              (_generate_agent_response c cfg.state cfg.node
                (determine_next_node c cfg.pk cfg.state).2 cfg.ik cfg.fetchLog).state).2
            (_generate_agent_response c cfg.state cfg.node
              (determine_next_node c cfg.pk cfg.state).2 cfg.ik cfg.fetchLog).ik
            0 0
            (_generate_agent_response c cfg.state cfg.node
              (determine_next_node c cfg.pk cfg.state).2 cfg.ik cfg.fetchLog).fetchLog
            cfg.node hnd h3 hkeys hgen

/-- The invariant holds at the initial configuration. -/
theorem inv_init (A : List String) (nf : Bool) (topic : String) (mr : Nat) (rag : Bool)
    (hnd : A.Nodup) (h3 : 3 ≤ A.length) (hkeys : ∀ a ∈ A, a ∈ roleKeys) :
    Inv A nf (initConfig topic A mr rag) := by
  have hnA : A.getD 0 "" ∈ A := getD_mem A 0 (by omega)
  refine ⟨rfl, Or.inl rfl, Or.inl hnA, ?_, ?_, ?_, ?_, ?_, ?_, ?_, ?_, ?_, ?_, ?_, ?_, ?_,
    ?_, ?_, ?_, ?_⟩
  · intro r hr
    exact absurd (show r ∈ ([] : List QA) from hr) (by simp)
  · intro hq
    exact absurd (show ("opening" : String) = "questioning" from hq) (by decide)
  · intro _ hw
    exact absurd (show (false : Bool) = true from hw) (by decide)
  · intro hq
    rcases hq with hq | hq
    · exact absurd (show ("opening" : String) = "free_debate" from hq) (by decide)
    · exact absurd (show ("opening" : String) = "closing" from hq) (by decide)
  · intro _
    rfl
  · intro hn
    exact absurd hn (reserved_not_mem A hkeys _ hnA).2.1
  · intro a
    show List.count a ([] : List String) ≤ 1
    simp
  · intro _ j h _
    show List.count (A.get ⟨j, h⟩) ([] : List String) = 0
    simp
  · intro _ _ j h hj
    exact absurd (show j < 0 from hj) (by omega)
  · intro _ _ j h _
    show ¬ A.get ⟨j, h⟩ ∈ dictKeys []
    simp [dictKeys]
  · intro hnf hS
    exact absurd rfl hS
  · intro _ hn
    exact absurd hn (reserved_not_mem A hkeys _ hnA).1
  · intro hn
    exact absurd hn (reserved_not_mem A hkeys _ hnA).2.2.1
  · intro _ hS
    exact absurd (show ("opening" : String) = "closing" from hS) (by decide)
  · intro _ hn
    exact absurd hn (reserved_not_mem A hkeys _ hnA).2.2.2.1
  · show (dictKeys ([] : List (String × String))).Nodup
    simp [dictKeys]
  · show (dictKeys ([] : List (String × String))).Nodup
    simp [dictKeys]

/-- The invariant holds at every reachable configuration of a run from a
valid initial configuration. -/
theorem inv_iterStep (A : List String) (nf : Bool) (c : Collab) (topic : String)
    (mr : Nat) (rag : Bool) (n : Nat)
    (hnd : A.Nodup) (h3 : 3 ≤ A.length) (hkeys : ∀ a ∈ A, a ∈ roleKeys)
    (hok : nf = true → ∀ i, ∃ tx, c.infer i = Except.ok tx) :
    Inv A nf (iterStep c n (initConfig topic A mr rag)) := by
  have aux : ∀ (m : Nat) (cfg : Config), Inv A nf cfg → Inv A nf (iterStep c m cfg) := by
    intro m
    induction m with
    | zero => exact fun cfg h => h
    | succ k ih => exact fun cfg h => ih _ (inv_step A nf c cfg hnd h3 hkeys hok h)
  exact aux n _ (inv_init A nf topic mr rag hnd h3 hkeys)

/-! ### Claim theorems -/

/-- Claim C2: the scheduler's next-actor computation follows the
per-stage indexing rule — in `opening`, `active_participants[stage_progress]`
while `stage_progress < N`, else a transition to `questioning`; in
`free_debate`, with `round = stage_progress div N + 1`, the actor
`active_participants[stage_progress mod N]` while `round ≤ max_rounds`,
else a transition to `closing`; in `closing`,
`active_participants[stage_progress]` while `stage_progress < N`, else
termination. -/
theorem C2_stage_indexing (c : Collab) (k : Nat) (s : DebateState) :
    (s.current_stage = "opening" →
      (s.stage_progress < s.active_agents.length →
        (determine_next_node c k s).1 = s.active_agents.getD s.stage_progress "") ∧
      (s.active_agents.length ≤ s.stage_progress →
        (determine_next_node c k s).1 = "questioning")) ∧
    (s.current_stage = "free_debate" →
      (s.stage_progress / s.active_agents.length + 1 ≤ s.max_rounds →
        (determine_next_node c k s).1 =
          s.active_agents.getD (s.stage_progress % s.active_agents.length) "") ∧
      (s.max_rounds < s.stage_progress / s.active_agents.length + 1 →
        (determine_next_node c k s).1 = "closing")) ∧
    (s.current_stage = "closing" →
      (s.stage_progress < s.active_agents.length →
        (determine_next_node c k s).1 = s.active_agents.getD s.stage_progress "") ∧
      (s.active_agents.length ≤ s.stage_progress →
        (determine_next_node c k s).1 = "__end__")) := by
  refine ⟨fun hst => ⟨fun hlt => ?_, fun hge => ?_⟩,
    fun hst => ⟨fun hle => ?_, fun hgt => ?_⟩,
    fun hst => ⟨fun hlt => ?_, fun hge => ?_⟩⟩
  · simp [determine_next_node, hst, hlt]
  · simp [determine_next_node, hst, Nat.not_lt.mpr hge]
  · simp [determine_next_node, hst, hle]
  · simp [determine_next_node, hst, Nat.not_le.mpr hgt]
  · simp [determine_next_node, hst, hlt]
  · simp [determine_next_node, hst, Nat.not_lt.mpr hge]

/-- Witness for C2 at concrete states: an opening state at progress 0
(actor `tech_expert`), a free-debate state at progress 4 with
`max_rounds = 2` (round 2, actor `sociologist`), and a closing state at
progress 3 of 3 (termination). -/
theorem C2_stage_indexing_witness :
    (determine_next_node okCollab 0 (initState "主题" agents3 2 false)).1 = "tech_expert" ∧
    (determine_next_node okCollab 0
      { initState "主题" agents3 2 false with
          current_stage := "free_debate", stage_progress := 4 }).1 = "sociologist" ∧
    (determine_next_node okCollab 0
      { initState "主题" agents3 2 false with
          current_stage := "closing", stage_progress := 3 }).1 = "__end__" := by
  refine ⟨?_, ?_, ?_⟩
  · exact (((C2_stage_indexing okCollab 0
      (initState "主题" agents3 2 false)).1 rfl).1 (by decide)).trans (by decide)
  · exact (((C2_stage_indexing okCollab 0
      { initState "主题" agents3 2 false with
          current_stage := "free_debate", stage_progress := 4 }).2.1 rfl).1 (by decide)).trans
      (by decide)
  · exact ((C2_stage_indexing okCollab 0
      { initState "主题" agents3 2 false with
          current_stage := "closing", stage_progress := 3 }).2.2 rfl).2 (by decide)

/-- Claim C3: while `waiting_for_answer` holds in the questioning stage
the scheduler's next actor is exactly `current_target`; and when the
pending target is empty or not an active participant the scheduler
recovers by transitioning to `free_debate` instead of terminating. -/
theorem C3_answer_forcing (c : Collab) (k : Nat) (s : DebateState)
    (hst : s.current_stage = "questioning") (hw : s.waiting_for_answer = true) :
    (s.current_target ≠ "" ∧ s.current_target ∈ s.active_agents →
      (determine_next_node c k s).1 = s.current_target) ∧
    (s.current_target = "" ∨ s.current_target ∉ s.active_agents →
      (determine_next_node c k s).1 = "free_debate" ∧
      (determine_next_node c k s).1 ≠ "__end__") := by
  constructor
  · intro hv
    simp [determine_next_node, hst, hw, hv.1, hv.2]
  · intro hinv
    have hnv : ¬(s.current_target ≠ "" ∧ s.current_target ∈ s.active_agents) := by
      rcases hinv with h | h
      · exact fun hc => hc.1 h
      · exact fun hc => h hc.2
    have heq : (determine_next_node c k s).1 = "free_debate" := by
      simp [determine_next_node, hst, hw, hnv]
    refine ⟨heq, ?_⟩
    rw [heq]
    decide

/-- Witness for C3: a questioning state awaiting an answer from
`sociologist` routes to `sociologist`; the same state with a corrupted
target `"ghost"` transitions to `free_debate`. -/
theorem C3_answer_forcing_witness :
    (determine_next_node okCollab 0
      { initState "主题" agents3 2 false with
          current_stage := "questioning", waiting_for_answer := true,
          current_target := "sociologist" }).1 = "sociologist" ∧
    (determine_next_node okCollab 0
      { initState "主题" agents3 2 false with
          current_stage := "questioning", waiting_for_answer := true,
          current_target := "ghost" }).1 = "free_debate" := by
  constructor
  · exact (C3_answer_forcing okCollab 0
      { initState "主题" agents3 2 false with
          current_stage := "questioning", waiting_for_answer := true,
          current_target := "sociologist" } rfl rfl).1 (by decide)
  · exact ((C3_answer_forcing okCollab 0
      { initState "主题" agents3 2 false with
          current_stage := "questioning", waiting_for_answer := true,
          current_target := "ghost" } rfl rfl).2 (by decide)).1

theorem candidates_questioner_filter (active : List String) (qa : List QA)
    (h : active ≠ []) :
    candidates_questioner active qa =
      active.filter (fun a => decide (∀ b ∈ active, question_count qa a ≤ question_count qa b)) := by
  apply List.filter_congr
  intro a ha
  rw [decide_eq_decide]
  constructor
  · intro heq b hb
    rw [heq]
    exact listMin_le _ _ (List.mem_map_of_mem _ hb)
  · intro hall
    have hmap : active.map (question_count qa) ≠ [] := by simpa using h
    rcases List.mem_map.mp (listMin_attained _ hmap) with ⟨a0, ha0, hval⟩
    exact le_antisymm (hval ▸ hall a0 ha0) (listMin_le _ _ (List.mem_map_of_mem _ ha))

theorem candidates_target_filter (active : List String) (qa : List QA) (q : String)
    (hnd : active.Nodup) (h2 : 2 ≤ active.length) :
    candidates_target active qa q =
      active.filter (fun a => decide (a ≠ q ∧
        ∀ b ∈ active, b ≠ q → target_count qa a ≤ target_count qa b)) := by
  have hav := available_targets_ne_nil active q hnd h2
  rw [candidates_target, available_targets, List.filter_filter]
  apply List.filter_congr
  intro a ha
  rw [Bool.and_comm, ← Bool.decide_and, decide_eq_decide]
  constructor
  · rintro ⟨hne, heq⟩
    refine ⟨hne, fun b hb hbq => ?_⟩
    rw [heq]
    refine listMin_le _ _ (List.mem_map_of_mem _ ?_)
    exact (mem_available_targets active q b).mpr ⟨hb, hbq⟩
  · rintro ⟨hne, hall⟩
    refine ⟨hne, ?_⟩
    have hmap : (available_targets active q).map (target_count qa) ≠ [] := by simpa using hav
    rcases List.mem_map.mp (listMin_attained _ hmap) with ⟨a0, ha0, hval⟩
    have ha0' := (mem_available_targets active q a0).mp ha0
    refine le_antisymm (hval ▸ hall a0 ha0'.1 ha0'.2) ?_
    refine listMin_le _ _ (List.mem_map_of_mem _ ?_)
    exact (mem_available_targets active q a).mpr ⟨ha, hne⟩

/-- Claim C5: the questioner is drawn from exactly the set of
participants with minimal authored-count, the target from exactly the
remaining participants with minimal received-count, and each draw is
uniform: over one full period of `random.choice` indices the selections
enumerate the (duplicate-free) candidate set exactly once each. -/
theorem C5_fair_rotation_selection (p1 p2 : Nat) (active : List String) (qa : List QA)
    (hnd : active.Nodup) (h2 : 2 ≤ active.length) :
    (select_next_questioner_and_target p1 p2 active qa).1 ∈ active ∧
    (∀ b ∈ active, question_count qa (select_next_questioner_and_target p1 p2 active qa).1 ≤
      question_count qa b) ∧
    (select_next_questioner_and_target p1 p2 active qa).2 ∈ active ∧
    (select_next_questioner_and_target p1 p2 active qa).2 ≠
      (select_next_questioner_and_target p1 p2 active qa).1 ∧
    (∀ b ∈ active, b ≠ (select_next_questioner_and_target p1 p2 active qa).1 →
      target_count qa (select_next_questioner_and_target p1 p2 active qa).2 ≤
        target_count qa b) ∧
    ((List.range (candidates_questioner active qa).length).map
        (fun i => (select_next_questioner_and_target i p2 active qa).1)
      = candidates_questioner active qa) ∧
    (candidates_questioner active qa =
      active.filter (fun a => decide (∀ b ∈ active, question_count qa a ≤ question_count qa b))) ∧
    ((List.range (candidates_target active qa
          (select_next_questioner_and_target p1 p2 active qa).1).length).map
        (fun j => (select_next_questioner_and_target p1 j active qa).2)
      = candidates_target active qa (select_next_questioner_and_target p1 p2 active qa).1) ∧
    (candidates_target active qa (select_next_questioner_and_target p1 p2 active qa).1 =
      active.filter (fun a => decide (a ≠ (select_next_questioner_and_target p1 p2 active qa).1 ∧
        ∀ b ∈ active, b ≠ (select_next_questioner_and_target p1 p2 active qa).1 →
          target_count qa a ≤ target_count qa b))) ∧
    (candidates_questioner active qa).Nodup ∧
    (candidates_target active qa (select_next_questioner_and_target p1 p2 active qa).1).Nodup := by
  have hne : active ≠ [] := by
    intro h
    rw [h] at h2
    exact absurd h2 (by decide)
  have hqcand : (select_next_questioner_and_target p1 p2 active qa).1 ∈
      candidates_questioner active qa := by
    rw [select_fst_eq]
    exact choiceAt_mem _ _ (candidates_questioner_ne_nil active qa hne)
  have hqspec := (mem_candidates_questioner active qa _).mp hqcand
  have htcand : (select_next_questioner_and_target p1 p2 active qa).2 ∈
      candidates_target active qa (select_next_questioner_and_target p1 p2 active qa).1 := by
    rw [select_snd_eq, select_fst_eq]
    exact choiceAt_mem _ _ (candidates_target_ne_nil active qa _ hnd h2)
  have htspec := (mem_candidates_target active qa _ _).mp htcand
  refine ⟨hqspec.1, ?_, htspec.1.1, htspec.1.2, ?_, ?_, candidates_questioner_filter active qa hne,
    ?_, candidates_target_filter active qa _ hnd h2, ?_, ?_⟩
  · intro b hb
    rw [hqspec.2]
    exact listMin_le _ _ (List.mem_map_of_mem _ hb)
  · intro b hb hbq
    rw [htspec.2]
    refine listMin_le _ _ (List.mem_map_of_mem _ ?_)
    exact (mem_available_targets active _ b).mpr ⟨hb, hbq⟩
  · rw [show (fun i => (select_next_questioner_and_target i p2 active qa).1) =
        (fun i => choiceAt i (candidates_questioner active qa)) from rfl]
    exact choiceAt_enum _
  · rw [show (fun j => (select_next_questioner_and_target p1 j active qa).2) =
        (fun j => choiceAt j (candidates_target active qa
          (choiceAt p1 (candidates_questioner active qa)))) from rfl]
    rw [select_fst_eq]
    exact choiceAt_enum _
  · exact List.Nodup.filter _ hnd
  · exact List.Nodup.filter _ (List.Nodup.filter _ hnd)

/-- Witness for C5 at a concrete ledger: three participants, one prior
question from `tech_expert` to `sociologist`; the minimal-authored set
is the remaining two participants. -/
theorem C5_fair_rotation_selection_witness :
    agents3.Nodup ∧ 2 ≤ agents3.length ∧
    (select_next_questioner_and_target 0 0 agents3
      [⟨"tech_expert", "sociologist", "q", "a"⟩]).1 = "sociologist" ∧
    (∀ b ∈ agents3, question_count [⟨"tech_expert", "sociologist", "q", "a"⟩]
      (select_next_questioner_and_target 0 0 agents3
        [⟨"tech_expert", "sociologist", "q", "a"⟩]).1 ≤
      question_count [⟨"tech_expert", "sociologist", "q", "a"⟩] b) := by
  refine ⟨by decide, by decide, by decide, ?_⟩
  exact (C5_fair_rotation_selection 0 0 agents3
    [⟨"tech_expert", "sociologist", "q", "a"⟩] (by decide) (by decide)).2.1

/-- Counterexample to claim C1: in the reference scenario (N = 3,
`max_rounds` = 2, tie-breaks consistently drawing index 0 so scheduler
and generator always agree) the terminated run produces 18
participant-attributed turns, not the claimed
`N·(3 + max_rounds) = 15` — the questioning stage produces an answer
turn after each question turn. -/
theorem C1_counterexample :
    spokenCount (runEvents okCollab 25 okConfig) = 18 ∧
    transCount (runEvents okCollab 25 okConfig) = 3 ∧
    (iterStep okCollab 21 okConfig).node = "__end__" ∧
    ¬ spokenCount (runEvents okCollab 25 okConfig) = 15 := by
  decide

/-- Claim C1 as amended: in the reference scenario (N = 3: `tech_expert,
sociologist, ethicist`, `max_rounds` = 2, consistent index-0
tie-breaking) the run terminates after exactly
`N·(4 + max_rounds) = 18` participant turns — N opening + N question +
N answer + N·max_rounds free-debate + N closing — plus 3 stage
transitions, ending after the third closing turn; the full transcript is
exactly the event list below. -/
theorem C1_turn_totals :
    runEvents okCollab 25 okConfig =
      [Event.turn "tech_expert" "技术专家: 发言完毕",
       Event.turn "sociologist" "社会学家: 发言完毕",
       Event.turn "ethicist" "伦理学家: 发言完毕",
       Event.trans "questioning" "📝 现在进入提问回答阶段，每位专家将有机会向其他专家提问。",
       Event.turn "tech_expert" "技术专家: 发言完毕",
       Event.turn "sociologist" "社会学家: 发言完毕",
       Event.turn "sociologist" "社会学家: 发言完毕",
       Event.turn "tech_expert" "技术专家: 发言完毕",
       Event.turn "ethicist" "伦理学家: 发言完毕",
       Event.turn "tech_expert" "技术专家: 发言完毕",
       Event.trans "free_debate" "🎯 现在进入自由辩论阶段，各位专家可以就争议观点展开深入讨论。",
       Event.turn "tech_expert" "技术专家: 发言完毕",
       Event.turn "sociologist" "社会学家: 发言完毕",
       Event.turn "ethicist" "伦理学家: 发言完毕",
       Event.turn "tech_expert" "技术专家: 发言完毕",
       Event.turn "sociologist" "社会学家: 发言完毕",
       Event.turn "ethicist" "伦理学家: 发言完毕",
       Event.trans "closing" "🏁 现在进入结辩综述阶段，各位专家请发表总结陈词。",
       Event.turn "tech_expert" "技术专家: 发言完毕",
       Event.turn "sociologist" "社会学家: 发言完毕",
       Event.turn "ethicist" "伦理学家: 发言完毕"] ∧
    spokenCount (runEvents okCollab 25 okConfig) = 3 * (4 + 2) ∧
    transCount (runEvents okCollab 25 okConfig) = 3 ∧
    (iterStep okCollab 21 okConfig).node = "__end__" ∧
    (iterStep okCollab 20 okConfig).node = "ethicist" := by
  decide

/-- Counterexample to claim C7: on a first-turn fetch that returns
nothing (the retrieval collaborator yields the empty string), the
retrieval was invoked but *no* sentinel is stored in the cache and the
participant is *not* marked as fetched (graph.py lines 471-473 return
the placeholder without touching `agent_paper_cache` or
`first_round_rag_completed`). -/
theorem C7_counterexample :
    (get_rag_context_for_agent okCollab "tech_expert"
      (initState "主题" agents3 2 true)).fetched = true ∧
    (get_rag_context_for_agent okCollab "tech_expert"
      (initState "主题" agents3 2 true)).context = nothingFound ∧
    ¬ "tech_expert" ∈ dictKeys (get_rag_context_for_agent okCollab "tech_expert"
      (initState "主题" agents3 2 true)).cache ∧
    ¬ "tech_expert" ∈ (get_rag_context_for_agent okCollab "tech_expert"
      (initState "主题" agents3 2 true)).completed := by
  decide

/-- Claim C7 as amended: when a participant's first-turn context fetch
returns nothing (empty or the retrieval module's sentinel), the
generator uses a fixed "nothing found" placeholder but stores nothing
into the context cache and does not mark the participant as fetched —
so "fetched, found nothing" is *not* recorded in the state (only
successful non-empty fetches are cached and marked). -/
theorem C7_nothing_found_not_cached (c : Collab) (s : DebateState) (a : String)
    (hrag : s.rag_enabled = true) (hst : s.current_stage = "opening")
    (hnot : a ∉ s.first_round_rag_completed)
    (hempty : c.retrieve a s.main_topic = "" ∨ pyStrip (c.retrieve a s.main_topic) = emptySentinel) :
    get_rag_context_for_agent c a s =
      ⟨nothingFound, s.agent_paper_cache, s.first_round_rag_completed, true⟩ := by
  have hcond : ¬(c.retrieve a s.main_topic ≠ "" ∧
      pyStrip (c.retrieve a s.main_topic) ≠ emptySentinel) := by
    rcases hempty with h | h
    · exact fun hc => hc.1 h
    · exact fun hc => hc.2 h
  simp [get_rag_context_for_agent, hrag, hst, hnot, hcond]

/-- Witness for the amended C7 at a concrete state: retrieval returns
the empty string for `tech_expert` on its first opening turn. -/
theorem C7_nothing_found_not_cached_witness :
    (initState "主题" agents3 2 true).rag_enabled = true ∧
    (initState "主题" agents3 2 true).current_stage = "opening" ∧
    ¬ "tech_expert" ∈ (initState "主题" agents3 2 true).first_round_rag_completed ∧
    okCollab.retrieve "tech_expert" (initState "主题" agents3 2 true).main_topic = "" ∧
    get_rag_context_for_agent okCollab "tech_expert" (initState "主题" agents3 2 true) =
      ⟨nothingFound, (initState "主题" agents3 2 true).agent_paper_cache,
        (initState "主题" agents3 2 true).first_round_rag_completed, true⟩ := by
  refine ⟨by decide, by decide, by decide, by decide, ?_⟩
  exact C7_nothing_found_not_cached okCollab (initState "主题" agents3 2 true) "tech_expert"
    (by decide) (by decide) (by decide) (Or.inl (by decide))

/-- Claim C10: the question generator re-runs the randomized questioner
selection independently of the scheduler's draw; in the reference
scenario with all three participants tied at authored-count 0, the
scheduler routes to `tech_expert` but the generator's fresh draw picks
`sociologist`, so `tech_expert` emits the "当前不是我的提问时间" error
turn, `total_messages` and `stage_progress` advance by 1, and
`questions_asked` stays empty — a questioning-stage turn is consumed
without producing a question or an answer. -/
theorem C10_independent_redraw_mismatch :
    (iterStep misCollab 4 misConfig).node = "tech_expert" ∧
    (iterStep misCollab 4 misConfig).state.current_stage = "questioning" ∧
    (iterStep misCollab 4 misConfig).state.questions_asked = [] ∧
    (∀ a ∈ (iterStep misCollab 4 misConfig).state.active_agents,
      question_count (iterStep misCollab 4 misConfig).state.questions_asked a = 0) ∧
    (select_next_questioner_and_target
      (misCollab.pick 4) (misCollab.pick 5)
      (iterStep misCollab 4 misConfig).state.active_agents
      (iterStep misCollab 4 misConfig).state.questions_asked).1 = "sociologist" ∧
    (runEvents misCollab 5 misConfig).getLast? =
      some (Event.turn "tech_expert" "技术专家: 当前不是我的提问时间。") ∧
    (iterStep misCollab 5 misConfig).state.questions_asked = [] ∧
    (iterStep misCollab 5 misConfig).state.stage_progress =
      (iterStep misCollab 4 misConfig).state.stage_progress + 1 ∧
    (iterStep misCollab 5 misConfig).state.total_messages =
      (iterStep misCollab 4 misConfig).state.total_messages + 1 := by
  decide

/-- The always-failing run reaches a self-reproducing questioning
configuration: `tech_expert` is scheduled, its inference call raises, no
question record is appended, and the scheduler re-selects `tech_expert`
again.  One step preserves the shape (only counters and the transcript
grow). -/
theorem failCollab_stuck_step (cfg : Config)
    (hnode : cfg.node = "tech_expert")
    (hstage : cfg.state.current_stage = "questioning")
    (hagents : cfg.state.active_agents = agents3)
    (hqa : cfg.state.questions_asked = [])
    (hw : cfg.state.waiting_for_answer = false)
    (hrag : cfg.state.rag_enabled = false) :
    (step failCollab cfg).1.node = "tech_expert" ∧
    (step failCollab cfg).1.state.current_stage = "questioning" ∧
    (step failCollab cfg).1.state.active_agents = agents3 ∧
    (step failCollab cfg).1.state.questions_asked = [] ∧
    (step failCollab cfg).1.state.waiting_for_answer = false ∧
    (step failCollab cfg).1.state.rag_enabled = false ∧
    (step failCollab cfg).2 = some (Event.turn "tech_expert"
      (apologyMsg "tech_expert" "连接超时")) ∧
    (step failCollab cfg).1.state.total_messages = cfg.state.total_messages + 1 ∧
    (step failCollab cfg).1.state.stage_progress = cfg.state.stage_progress + 1 := by
  have hsel : ∀ p1 p2 : Nat, p1 = 0 → p2 = 0 →
      (select_next_questioner_and_target p1 p2 agents3 []).1 = "tech_expert" := by
    intro p1 p2 h1 h2
    subst h1; subst h2
    decide
  simp only [step, hnode, hstage, hagents, hqa, hw, hrag, determine_next_node,
    _generate_agent_response, _generate_question, _generate_opening_statement,
    get_rag_context_for_agent, incr, failCollab]
  simp [select_next_questioner_and_target, candidates_questioner, question_count, listMin,
    choiceAt, agents3, apologyMsg, roleName, incr, _generate_agent_response,
    _generate_question, get_rag_context_for_agent, determine_next_node]

/-- After the three opening turns and the transition, the always-failing
run is in the stuck questioning configuration, and stays there forever:
for every additional number of steps the run is still in the questioning
stage at node `tech_expert` with an empty question ledger. -/
theorem failCollab_stuck_forever (m : Nat) :
    (iterStep failCollab (5 + m) failConfig).node = "tech_expert" ∧
    (iterStep failCollab (5 + m) failConfig).state.current_stage = "questioning" ∧
    (iterStep failCollab (5 + m) failConfig).state.questions_asked = [] := by
  have hshape : ∀ k : Nat,
      (iterStep failCollab (5 + k) failConfig).node = "tech_expert" ∧
      (iterStep failCollab (5 + k) failConfig).state.current_stage = "questioning" ∧
      (iterStep failCollab (5 + k) failConfig).state.active_agents = agents3 ∧
      (iterStep failCollab (5 + k) failConfig).state.questions_asked = [] ∧
      (iterStep failCollab (5 + k) failConfig).state.waiting_for_answer = false ∧
      (iterStep failCollab (5 + k) failConfig).state.rag_enabled = false := by
    intro k
    induction k with
    | zero => decide
    | succ n ih =>
      obtain ⟨h1, h2, h3, h4, h5, h6⟩ := ih
      have hstep := failCollab_stuck_step _ h1 h2 h3 h4 h5 h6
      have hiter : iterStep failCollab (5 + (n + 1)) failConfig =
          (step failCollab (iterStep failCollab (5 + n) failConfig)).1 := by
        have hsum : 5 + (n + 1) = (5 + n) + 1 := by omega
        rw [hsum]
        clear hstep h1 h2 h3 h4 h5 h6
        generalize failConfig = cfg0
        induction (5 + n) generalizing cfg0 with
        | zero => rfl
        | succ j ihj => exact ihj _
      rw [hiter]
      exact ⟨hstep.1, hstep.2.1, hstep.2.2.1, hstep.2.2.2.1, hstep.2.2.2.2.1,
        hstep.2.2.2.2.2.1⟩
  exact ⟨(hshape m).1, (hshape m).2.1, (hshape m).2.2.2.1⟩

/-- Counterexample to claim C8's termination clause: with an inference
collaborator that always fails, the reference-scenario run produces the
three opening apology turns, transitions to questioning, and then loops
there forever — after `5 + m` steps, for every `m`, it is still in the
questioning stage with an empty question ledger; after 100 steps it has
emitted 99 participant turns (already more than the 15 scheduled ones)
without terminating. -/
theorem C8_counterexample :
    (iterStep failCollab 100 failConfig).node ≠ "__end__" ∧
    (iterStep failCollab 100 failConfig).state.current_stage = "questioning" ∧
    (iterStep failCollab 100 failConfig).state.questions_asked = [] ∧
    spokenCount (runEvents failCollab 100 failConfig) = 99 ∧
    transCount (runEvents failCollab 100 failConfig) = 1 := by
  decide

/-- Claim C8 as amended: whenever a turn's generation reaches the
inference call and the collaborator raises, the generator returns the
fixed apology attributed to the participant's display name, increments
`total_messages` and `stage_progress` by 1, and leaves the stage, the
question ledger and both statement records unchanged — so the failed
turn consumes a scheduling slot and the debate goes on.  But a failed
questioning turn appends no ledger record, so a run whose inference
always fails loops in the questioning stage and never terminates: the
original claim's "still reaches termination" clause is false. -/
theorem C8_failure_apology (c : Collab) (s : DebateState) (a : String) (pk ik : Nat)
    (flog : List String) (e : String)
    (hik : c.infer ik = Except.error e)
    (hcall :
      s.current_stage = "opening" ∨
      s.current_stage = "free_debate" ∨
      s.current_stage = "closing" ∨
      (s.current_stage = "questioning" ∧
        ¬(s.waiting_for_answer = true ∧ s.current_target = a) ∧
        (select_next_questioner_and_target (c.pick pk) (c.pick (pk + 1))
          s.active_agents s.questions_asked).1 = a) ∨
      (s.current_stage = "questioning" ∧
        (s.waiting_for_answer = true ∧ s.current_target = a) ∧
        s.questions_asked ≠ [])) :
    (_generate_agent_response c s a pk ik flog).msg = apologyMsg a e ∧
    (_generate_agent_response c s a pk ik flog).state.total_messages =
      s.total_messages + 1 ∧
    (_generate_agent_response c s a pk ik flog).state.stage_progress =
      s.stage_progress + 1 ∧
    (_generate_agent_response c s a pk ik flog).state.current_stage = s.current_stage ∧
    (_generate_agent_response c s a pk ik flog).state.questions_asked =
      s.questions_asked ∧
    (_generate_agent_response c s a pk ik flog).state.opening_statements =
      s.opening_statements ∧
    (_generate_agent_response c s a pk ik flog).state.closing_statements =
      s.closing_statements ∧
    (∀ m, (iterStep failCollab (5 + m) failConfig).node ≠ "__end__") := by
  have hterm : ∀ m, (iterStep failCollab (5 + m) failConfig).node ≠ "__end__" := by
    intro m hcontra
    have h := (failCollab_stuck_forever m).1
    exact absurd (h.symm.trans hcontra) (by decide)
  rcases hcall with hs | hs | hs | ⟨hs, hw, hq⟩ | ⟨hs, hw, hqa⟩
  · refine ⟨?_, ?_, ?_, ?_, ?_, ?_, ?_, hterm⟩ <;>
      simp [_generate_agent_response, _generate_opening_statement, hs, hik, incr]
  · refine ⟨?_, ?_, ?_, ?_, ?_, ?_, ?_, hterm⟩ <;>
      simp [_generate_agent_response, _generate_free_debate_response, hs, hik, incr]
  · refine ⟨?_, ?_, ?_, ?_, ?_, ?_, ?_, hterm⟩ <;>
      simp [_generate_agent_response, _generate_closing_statement, hs, hik, incr]
  · refine ⟨?_, ?_, ?_, ?_, ?_, ?_, ?_, hterm⟩ <;>
      simp [_generate_agent_response, _generate_question, hs, hw, hq, hik, incr]
  · refine ⟨?_, ?_, ?_, ?_, ?_, ?_, ?_, hterm⟩ <;>
      simp [_generate_agent_response, _generate_answer, hs, hw.1, hw.2, hqa, hik, incr]

/-- Witness for the amended C8 at a concrete turn: `tech_expert`'s very
first opening turn under the always-failing inference collaborator. -/
theorem C8_failure_apology_witness :
    failCollab.infer 0 = Except.error "连接超时" ∧
    (_generate_agent_response failCollab (initState "主题" agents3 2 false)
      "tech_expert" 0 0 []).msg = apologyMsg "tech_expert" "连接超时" ∧
    (_generate_agent_response failCollab (initState "主题" agents3 2 false)
      "tech_expert" 0 0 []).state.stage_progress =
      (initState "主题" agents3 2 false).stage_progress + 1 ∧
    (iterStep failCollab (5 + 100) failConfig).node ≠ "__end__" := by
  have h := C8_failure_apology failCollab (initState "主题" agents3 2 false)
    "tech_expert" 0 0 [] "连接超时" rfl (Or.inl rfl)
  exact ⟨rfl, h.1, h.2.2.1, h.2.2.2.2.2.2.2 100⟩

/-- Claim C4: in every reachable debate state the question ledger never
has more records than there are active participants; and once the stage
has moved past questioning into `free_debate`, every active participant
appears as questioner in exactly one ledger record. -/
theorem C4_ledger_bound_and_completion (c : Collab) (topic : String) (A : List String)
    (mr : Nat) (rag : Bool) (n : Nat)
    (hnd : A.Nodup) (h3 : 3 ≤ A.length) (hkeys : ∀ x ∈ A, x ∈ roleKeys) :
    (iterStep c n (initConfig topic A mr rag)).state.questions_asked.length ≤
      (iterStep c n (initConfig topic A mr rag)).state.active_agents.length ∧
    ((iterStep c n (initConfig topic A mr rag)).state.current_stage = "free_debate" →
      ∀ a ∈ (iterStep c n (initConfig topic A mr rag)).state.active_agents,
        question_count (iterStep c n (initConfig topic A mr rag)).state.questions_asked a
          = 1) := by
  have hinv := inv_iterStep A false c topic mr rag n hnd h3 hkeys
    (fun h => absurd h (by decide))
  constructor
  · rw [hinv.agents]
    rcases hinv.stage_ok with hs | hs | hs | hs
    · rw [hinv.op_qa hs]
      simp
    · exact qa_length_le A _ hnd hinv.q_mem (hinv.q_le hs)
    · exact qa_length_le A _ hnd hinv.q_mem
        (fun a ha => le_of_eq (hinv.qdone (Or.inl hs) a ha))
    · exact qa_length_le A _ hnd hinv.q_mem
        (fun a ha => le_of_eq (hinv.qdone (Or.inr hs) a ha))
  · intro hs a ha
    rw [hinv.agents] at ha
    exact hinv.qdone (Or.inl hs) a ha

/-- Witness for C4 in the reference scenario, twelve steps in. -/
theorem C4_ledger_bound_and_completion_witness :
    (iterStep okCollab 12 (initConfig "主题" agents3 2 false)).state.questions_asked.length ≤
      (iterStep okCollab 12 (initConfig "主题" agents3 2 false)).state.active_agents.length := by
  exact (C4_ledger_bound_and_completion okCollab "主题" agents3 2 false 12
    (by decide) (by decide) (by decide)).1

/-- Claim C6: the retrieval collaborator is invoked at most once per
participant over an entire run (the ghost fetch log never records a
participant twice); a fetch can happen only with retrieval enabled, in
the opening stage, for a participant not yet marked as fetched; and a
lookup outside that window for a participant with a cached entry
returns the cached value without fetching. -/
theorem C6_retrieval_once (c : Collab) (topic : String) (A : List String)
    (mr : Nat) (rag : Bool) (n : Nat) (a : String) (s : DebateState)
    (hnd : A.Nodup) (h3 : 3 ≤ A.length) (hkeys : ∀ x ∈ A, x ∈ roleKeys) :
    ((iterStep c n (initConfig topic A mr rag)).fetchLog.count a ≤ 1) ∧
    ((get_rag_context_for_agent c a s).fetched = true →
      s.rag_enabled = true ∧ s.current_stage = "opening" ∧
        a ∉ s.first_round_rag_completed) ∧
    (s.rag_enabled = true →
      ¬(s.current_stage = "opening" ∧ a ∉ s.first_round_rag_completed) →
      a ∈ dictKeys s.agent_paper_cache →
      get_rag_context_for_agent c a s =
        ⟨(dictLookup s.agent_paper_cache a).getD "", s.agent_paper_cache,
          s.first_round_rag_completed, false⟩) := by
  refine ⟨?_, ?_, ?_⟩
  · exact (inv_iterStep A false c topic mr rag n hnd h3 hkeys
      (fun h => absurd h (by decide))).fetch_le a
  · intro hf
    by_cases h1 : s.rag_enabled = false
    · simp [get_rag_context_for_agent, h1] at hf
    · by_cases h2 : s.current_stage = "opening" ∧ a ∉ s.first_round_rag_completed
      · refine ⟨?_, h2.1, h2.2⟩
        cases hb : s.rag_enabled with
        | false => exact absurd hb h1
        | true => rfl
      · by_cases h3c : a ∈ dictKeys s.agent_paper_cache
        · simp [get_rag_context_for_agent, h1, h2, h3c] at hf
        · simp [get_rag_context_for_agent, h1, h2, h3c] at hf
  · intro hragT h2 hmem
    have h1 : ¬ s.rag_enabled = false := by
      rw [hragT]
      decide
    simp [get_rag_context_for_agent, h1, h2, hmem]

/-- Witness for C6: a fetch-enabled run of the reference scenario, at
`tech_expert` and its initial state. -/
theorem C6_retrieval_once_witness :
    (iterStep ragCollab 10 (initConfig "主题" agents3 2 true)).fetchLog.count "tech_expert"
      ≤ 1 := by
  exact (C6_retrieval_once ragCollab "主题" agents3 2 true 10 "tech_expert"
    (initState "主题" agents3 2 true) (by decide) (by decide) (by decide)).1

/-- Counterexample to claim C9: under an always-failing inference
collaborator the run leaves the opening stage (it is in questioning
after five steps) while `opening_statements` holds no entry for the
active participant `tech_expert` — a failed opening turn records no
statement. -/
theorem C9_counterexample :
    (iterStep failCollab 5 failConfig).state.current_stage = "questioning" ∧
    "tech_expert" ∈ (iterStep failCollab 5 failConfig).state.active_agents ∧
    ¬ "tech_expert" ∈
      dictKeys (iterStep failCollab 5 failConfig).state.opening_statements := by
  decide

/-- Claim C9 as amended: provided the inference collaborator never
fails, once the stage has left `opening` every active participant has
exactly one recorded opening statement, and when the run has terminated
every active participant has exactly one recorded closing statement. -/
theorem C9_statement_completion (c : Collab) (topic : String) (A : List String)
    (mr : Nat) (rag : Bool) (n : Nat)
    (hnd : A.Nodup) (h3 : 3 ≤ A.length) (hkeys : ∀ x ∈ A, x ∈ roleKeys)
    (hok : ∀ i, ∃ tx, c.infer i = Except.ok tx) :
    (¬ (iterStep c n (initConfig topic A mr rag)).state.current_stage = "opening" →
      ∀ a ∈ A,
        (dictKeys
          (iterStep c n (initConfig topic A mr rag)).state.opening_statements).count a
          = 1) ∧
    ((iterStep c n (initConfig topic A mr rag)).node = "__end__" →
      ∀ a ∈ A,
        (dictKeys
          (iterStep c n (initConfig topic A mr rag)).state.closing_statements).count a
          = 1) := by
  have hinv := inv_iterStep A true c topic mr rag n hnd h3 hkeys (fun _ => hok)
  constructor
  · intro hs a ha
    exact List.count_eq_one_of_mem hinv.op_keys (hinv.op_done rfl hs a ha)
  · intro hend a ha
    exact List.count_eq_one_of_mem hinv.cl_keys (hinv.cl_done rfl hend a ha)

/-- Witness for the amended C9: the terminated reference run has exactly
one closing statement for `tech_expert`. -/
theorem C9_statement_completion_witness :
    (iterStep okCollab 21 (initConfig "主题" agents3 2 false)).node = "__end__" ∧
    (dictKeys
      (iterStep okCollab 21 (initConfig "主题" agents3 2 false)).state.closing_statements).count
      "tech_expert" = 1 := by
  refine ⟨by decide, ?_⟩
  exact (C9_statement_completion okCollab "主题" agents3 2 false 21
    (by decide) (by decide) (by decide) (fun i => ⟨"发言完毕", rfl⟩)).2 (by decide)
    "tech_expert" (by decide)

end DebateGraph
